import Mathlib

/-!
Verification of the timegraph library (src/timegraph/timegraph.py) against its
natural-language specification.

The embedding strategy:
* `timegraph.py` is embedded as executable Lean definitions over an explicit
  state (`TG.TimeGraph`) that models the Python heap with arenas: time points,
  links and chains are stored in lists and referenced by index, mirroring
  Python object identity and in-place mutation.
* Machine recursion that walks the heap (pseudo-time propagation, path search,
  renumbering, ...) take an explicit `fuel` argument bounding the recursion
  depth; all claim statements use generous fuel under which the modelled
  executions terminate exactly as the source does.
* Code raising exceptions is modelled with `Except String`.
* The repository imports two modules (`timegraph.pred`, `timegraph.util`) and a
  symbolic `AbsTime` interface that are not present in the source tree (the
  shipped `abstime.py` is a different datetime-backed implementation that does
  not export the functions `timegraph.py` imports).  Those parts are modelled
  from the specification; each such definition carries a doc comment starting
  with `Modelled from the spec:`.
* Two focused auxiliary models are used where the claims are about isolated
  algorithms: a keyed-record model of `TimeLinkList` (insertion/removal), and a
  chain-spine model of `TimePoint.add_strictness` / `prop_min` / `prop_max`.
-/

namespace TG

/-! ## Predicate constants (constants.py) -/

def PRED_EQUAL : String := "equal"

def PRED_SAME_TIME : String := "same-time"

def PRED_AT : String := "at"

def PRED_EXACTLY : String := "exactly"

def PREDS_EQUIV : List String := [PRED_EQUAL, PRED_SAME_TIME, PRED_AT, PRED_EXACTLY]

def PRED_BEFORE : String := "before"

def PRED_AFTER : String := "after"

def PREDS_SEQ : List String := [PRED_BEFORE, PRED_AFTER]

def PRED_DURING : String := "during"

def PRED_CONTAINS : String := "contains"

def PRED_OVERLAPS : String := "overlaps"

def PRED_OVERLAPPED_BY : String := "overlapped-by"

def PREDS_CONTAINMENT : List String := [PRED_DURING, PRED_CONTAINS, PRED_OVERLAPS, PRED_OVERLAPPED_BY]

def PRED_BETWEEN : String := "between"

def PRED_AT_MOST_BEFORE : String := "at-most-before"

def PRED_AT_LEAST_BEFORE : String := "at-least-before"

def PRED_EXACTLY_BEFORE : String := "exactly-before"

def PRED_AT_MOST_AFTER : String := "at-most-after"

def PRED_AT_LEAST_AFTER : String := "at-least-after"

def PRED_EXACTLY_AFTER : String := "exactly-after"

def PRED_UNKNOWN : String := "unknown"

/-- Modelled from the spec: missing constant `PRED_HAS_DURATION` (referenced by
`timegraph.py` but absent from `constants.py`); the spec's duration predicates
suggest the obvious stem. -/
def PRED_HAS_DURATION : String := "has-duration"

/-- Modelled from the spec: the effort default for queries; spec section 6
gives `relation(a1, a2, effort=0)` and `elapsed(a1, a2, effort=0)`, and the
glossary describes effort 0 as constant-time lookups only. -/
def DEFAULT_EFFORT : Int := 0

def PSEUDO_INIT : Int := 1

def PSEUDO_INCREMENT : Int := 1000

/-- `strict_p` from timegraph.py: a strictness value is strict when it is 1
(the source also accepts the string "1" and True; all call sites modelled here
pass integers, with booleans converted at the call site). -/
def strict_p (x : Int) : Bool := x == 1

/-! ## Predicate algebra (spec section 4.2) — the source module `pred.py` is
not in the source tree, so these are modelled from the spec. -/

/-- Modelled from the spec: the base predicate stems (equivalence, sequence,
containment, between, unknown).  Predicate strings have the form `stem`,
`stem-s1` or `stem-s1-s2`; the constrained-duration predicates
(`at-least-before` and friends) are built on the stems `at` / `exactly`,
which is what `TimeGraph.enter`'s dispatch on `PRED_AT` / `PRED_EXACTLY`
requires. -/
def BASE_STEMS : List String :=
  ["overlapped-by", "same-time", "contains", "overlaps", "exactly",
   "between", "unknown", "during", "before", "equal", "after", "at"]

/-- Modelled from the spec: parse one strictness token; `s1, s2 ∈ \x7b0,1\x7d`,
anything else is the "unspecified" default -1 used throughout timegraph.py. -/
def parseStrict (t : String) : Int :=
  if t == "0" then 0 else if t == "1" then 1 else -1

/-- Split a character list at `-` separators (the character-level counterpart
of `str.split('-')`, written structurally). -/
def splitDash : List Char → List (List Char)
  | [] => [[]]
  | c :: rest =>
    if c = '-' then [] :: splitDash rest
    else
      match splitDash rest with
      | h :: t => (c :: h) :: t
      | [] => [[c]]

/-- Character-list prefix test (`str.startswith`, written structurally). -/
def isPrefixL : List Char → List Char → Bool
  | [], _ => true
  | _ :: _, [] => false
  | a :: as, b :: bs => a == b && isPrefixL as bs

/-- Modelled from the spec: `split(p) → (stem, s1, s2)` for predicate strings
of the form `stem`, `stem-s1` or `stem-s1-s2`. -/
def split_time_pred (p : String) : String × Int × Int :=
  match BASE_STEMS.find? (fun s => p == s || isPrefixL (s.data ++ ['-']) p.data) with
  | some s =>
    if p == s then (s, -1, -1)
    else
      match (splitDash (p.data.drop (s.data.length + 1))).map String.mk with
      | [t1] => (s, parseStrict t1, -1)
      | [t1, t2] => (s, parseStrict t1, parseStrict t2)
      | _ => (s, -1, -1)
  | none => (p, -1, -1)

/-- Modelled from the spec: `build(stem, s1, s2) → p`; strictness slots are
appended only when they are specified (0 or 1). -/
def build_pred (stem : String) (s1 s2 : Int) : String :=
  if s1 == 0 || s1 == 1 then
    if s2 == 0 || s2 == 1 then stem ++ "-" ++ toString s1 ++ "-" ++ toString s2
    else stem ++ "-" ++ toString s1
  else stem

/-- Modelled from the spec: the inversion table
before ↔ after, during ↔ contains, overlaps ↔ overlapped-by. -/
def inverse_stem (s : String) : String :=
  if s == PRED_BEFORE then PRED_AFTER
  else if s == PRED_AFTER then PRED_BEFORE
  else if s == PRED_DURING then PRED_CONTAINS
  else if s == PRED_CONTAINS then PRED_DURING
  else if s == PRED_OVERLAPS then PRED_OVERLAPPED_BY
  else if s == PRED_OVERLAPPED_BY then PRED_OVERLAPS
  else s

/-- Modelled from the spec: `inverse(p)` on a predicate string, preserving the
strictness suffixes. -/
def inverse_relnS (p : String) : String :=
  match split_time_pred p with
  | (s, s1, s2) => build_pred (inverse_stem s) s1 s2

/-- Modelled from the spec: `inverse_reln` as used in timegraph.py, which must
also map a missing answer (Python None) to a missing answer. -/
def inverse_reln : Option String → Option String :=
  Option.map inverse_relnS

/-- Modelled from the spec: subsumption test used all over timegraph.py.
`test_point_answer goal answer` holds when the answer's stem is the goal or is
one of the equivalence stems (an equal answer satisfies a non-strict before /
after goal, as `compare_absolute_times` and `search_meta` in the source
require). -/
def test_point_answer (goal answer : String) : Bool :=
  let s := (split_time_pred answer).1
  s == goal || PREDS_EQUIV.contains s

/-- Modelled from the spec: general-predicate variant of the subsumption test
(used by `collapse_chain`); same decision procedure as `test_point_answer`. -/
def test_answer (goal answer : String) : Bool :=
  test_point_answer goal answer

/-- Modelled from the spec: `combine_strict(s1, s2)` returns strict if either
argument is strict; otherwise the weaker (less specified) of the two. -/
def combine_strict (s1 s2 : Int) : Int :=
  if strict_p s1 || strict_p s2 then 1 else min s1 s2

/-! ## Extended integers

Python pseudo-time bounds and durations use `float('-inf')` / `float('inf')`
alongside exact integers; `XInt` models exactly that value space. -/

inductive XInt where
  | ninf : XInt
  | fin : Int → XInt
  | pinf : XInt
deriving DecidableEq, Repr

/-- Python `<=` on the modelled number space. -/
def XInt.le : XInt → XInt → Bool
  | .ninf, _ => true
  | _, .pinf => true
  | .fin a, .fin b => a ≤ b
  | _, _ => false

/-- Python `<` on the modelled number space. -/
def XInt.lt (a b : XInt) : Bool := !(XInt.le b a)

/-- Python `max` on the modelled number space. -/
def XInt.max (a b : XInt) : XInt := if XInt.le a b then b else a

/-- Python `min` on the modelled number space. -/
def XInt.min (a b : XInt) : XInt := if XInt.le a b then a else b

/-- Python truthiness of a number: 0 is falsy, everything else truthy. -/
def XInt.truthy : XInt → Bool
  | .fin z => z != 0
  | _ => true

/-- Python `+` on the modelled number space (absorbing infinities; durations
are never `-inf`, so the `pinf`-first orientation matches the source's float
arithmetic at every reachable call). -/
def XInt.add : XInt → XInt → XInt
  | .pinf, _ => .pinf
  | _, .pinf => .pinf
  | .ninf, _ => .ninf
  | _, .ninf => .ninf
  | .fin a, .fin b => .fin (a + b)

/-! ## Symbolic absolute times

The `AbsTime` class imported by timegraph.py (six slots, each a concrete
number or an uninterpreted variable, with comparison / merge / duration
operations) is not in the source tree — the shipped abstime.py is a
datetime-backed implementation without these operations.  The class is
therefore modelled from spec section 4.1. -/

/-- Modelled from the spec: one slot of a symbolic datetime — either a
concrete integer or an uninterpreted variable symbol meaning "unknown". -/
inductive Slot where
  | num : Int → Slot
  | sym : String → Slot
deriving DecidableEq, Repr

/-- Modelled from the spec: a six-slot symbolic datetime bound
(year, month, day, hour, minute, second). -/
structure AbsTime where
  slots : List Slot
deriving DecidableEq, Repr

def Slot.isNum : Slot → Bool
  | .num _ => true
  | .sym _ => false

/-- An absolute time all of whose slots are concrete. -/
def AbsTime.known (a : AbsTime) : Bool := a.slots.all Slot.isNum

def slotVal : Slot → Int
  | .num n => n
  | .sym _ => 0

/-- Modelled from the spec: seconds represented by a fully concrete six-slot
time, using the spec's leap-free calendar (365-day years; months counted as
30 days). Only used when every slot is concrete. -/
def AbsTime.toSecs (a : AbsTime) : Int :=
  match a.slots with
  | [y, mo, d, h, mi, s] =>
    slotVal y * 31536000 + (slotVal mo - 1) * 2592000 + (slotVal d - 1) * 86400 +
      slotVal h * 3600 + slotVal mi * 60 + slotVal s
  | _ => 0

/-- Modelled from the spec: rebuild a fully concrete six-slot time from a
seconds count (inverse of `AbsTime.toSecs` on its image). -/
def AbsTime.fromSecs (t : Int) : AbsTime :=
  let y := t.ediv 31536000
  let r1 := t.emod 31536000
  let mo := r1.ediv 2592000
  let r2 := r1.emod 2592000
  let d := r2.ediv 86400
  let r3 := r2.emod 86400
  let h := r3.ediv 3600
  let r4 := r3.emod 3600
  ⟨[.num y, .num (mo + 1), .num (d + 1), .num h, .num (r4.ediv 60), .num (r4.emod 60)]⟩

/-- Modelled from the spec: slot-wise lexicographic comparison.  A pair of
concrete slots either orders the comparison (strictly — every later slot is
bounded, so a difference in an earlier slot is decisive) or ties it; any pair
involving an unknown makes the remaining decision unknown. -/
def compareSlots : List Slot → List Slot → String
  | [], [] => PRED_EQUAL
  | Slot.num a :: as_, Slot.num b :: bs =>
    if a < b then PRED_BEFORE ++ "-1"
    else if b < a then PRED_AFTER ++ "-1"
    else compareSlots as_ bs
  | _, _ => PRED_UNKNOWN

/-- Modelled from the spec:
`compare(a, b) → equal | before-1 | after-1 | unknown`. -/
def AbsTime.compare (a b : AbsTime) : String := compareSlots a.slots b.slots

/-- Modelled from the spec: slot-wise maximum, keeping the concrete slot when
exactly one side is concrete (tightening a lower bound). -/
def mergeSlotsHi : List Slot → List Slot → List Slot
  | x :: xs, y :: ys =>
    (match x, y with
     | .num m, .num n => Slot.num (Max.max m n)
     | .num m, .sym _ => Slot.num m
     | .sym _, .num n => Slot.num n
     | .sym s, .sym _ => Slot.sym s) :: mergeSlotsHi xs ys
  | xs, _ => xs

/-- Modelled from the spec: slot-wise minimum, keeping the concrete slot when
exactly one side is concrete (tightening an upper bound). -/
def mergeSlotsLo : List Slot → List Slot → List Slot
  | x :: xs, y :: ys =>
    (match x, y with
     | .num m, .num n => Slot.num (Min.min m n)
     | .num m, .sym _ => Slot.num m
     | .sym _, .num n => Slot.num n
     | .sym s, .sym _ => Slot.sym s) :: mergeSlotsLo xs ys
  | xs, _ => xs

/-- Modelled from the spec: `merge_abs_min(new, currentMax)` — the pointwise
maximum (tightening a lower bound) that still stays ≤ `currentMax`. -/
def AbsTime.merge_abs_min (self new currentMax : AbsTime) : AbsTime :=
  let merged : AbsTime := ⟨mergeSlotsHi self.slots new.slots⟩
  if test_point_answer PRED_AFTER (merged.compare currentMax) then self else merged

/-- Modelled from the spec: `merge_abs_max(new, currentMin)` — the pointwise
minimum (tightening an upper bound) that stays ≥ `currentMin`. -/
def AbsTime.merge_abs_max (self new currentMin : AbsTime) : AbsTime :=
  let merged : AbsTime := ⟨mergeSlotsLo self.slots new.slots⟩
  if test_point_answer PRED_BEFORE (merged.compare currentMin) then self else merged

/-- Modelled from the spec: `calc_duration_min(other)` — nonnegative seconds
lower bound on `other - self`, 0 as soon as an unknown slot intrudes. -/
def AbsTime.calc_duration_min (self other : AbsTime) : XInt :=
  if self.known && other.known then .fin (Max.max 0 (other.toSecs - self.toSecs))
  else .fin 0

/-- Modelled from the spec: `calc_duration_max(other)` — seconds upper bound
on `other - self`, ∞ as soon as an unknown slot intrudes. -/
def AbsTime.calc_duration_max (self other : AbsTime) : XInt :=
  if self.known && other.known then .fin (Max.max 0 (other.toSecs - self.toSecs))
  else .pinf

/-- Modelled from the spec: `calc_add_dur(d)` — shift forward by `d` seconds,
preserving unknown slots (a time with unknown slots is left unchanged). -/
def AbsTime.calc_add_dur (self : AbsTime) (d : XInt) : AbsTime :=
  match d with
  | .fin n => if self.known then AbsTime.fromSecs (self.toSecs + n) else self
  | _ => self

/-- Modelled from the spec: `calc_sub_dur(d)` — shift backward by `d` seconds,
preserving unknown slots. -/
def AbsTime.calc_sub_dur (self : AbsTime) (d : XInt) : AbsTime :=
  match d with
  | .fin n => self.calc_add_dur (.fin (-n))
  | _ => self

/-- Modelled from the spec: `re_calc_abs_min(target, targetMax, dur)` — given
a duration lower bound along a link, tighten the neighbour's lower bound. -/
def AbsTime.re_calc_abs_min (self target targetMax : AbsTime) (dur : XInt) : AbsTime :=
  target.merge_abs_min (self.calc_add_dur dur) targetMax

/-- Modelled from the spec: `re_calc_abs_max(target, targetMin, dur)` — given
a duration lower bound along a link, tighten the neighbour's upper bound. -/
def AbsTime.re_calc_abs_max (self target targetMin : AbsTime) (dur : XInt) : AbsTime :=
  target.merge_abs_max (self.calc_sub_dur dur) targetMin

/-- Modelled from the spec: `duration_min` combines two lower bounds on the
same gap into the tightest one. -/
def duration_min (a b : XInt) : XInt := XInt.max a b

/-- Modelled from the spec: `combine_durations` sums the (min, max) bounds of
two consecutive legs of a path. -/
def combine_durations (d1 d2 : XInt × XInt) : XInt × XInt :=
  (XInt.add d1.1 d2.1, XInt.add d1.2 d2.2)

/-- Modelled from the spec: `get_best_duration` keeps the tightest overall
bounds — the max of the mins and the min of the maxes. -/
def get_best_duration (d1 d2 : XInt × XInt) : XInt × XInt :=
  (XInt.max d1.1 d2.1, XInt.min d1.2 d2.2)

/-! ## TimeLinkList: keyed-record model (TimeLinkList.add / remove)

`TimeLinkList.add` and `TimeLinkList.remove` in the source consult a link only
through its ordering key — the quadruple `(from.chain.chain_number,
from.pseudo, to.chain.chain_number, to.pseudo)`, which is what
`TimeLink.__eq__` compares — and through its `strict` flag.  For the claims
about these two methods the links are therefore modelled as records that carry
the key, the flag, and a tag `lid` standing for Python object identity (two
distinct `TimeLink` objects may carry equal keys). -/

namespace LinkList

structure TLink where
  lid : Nat
  from_chain : Nat
  from_pseudo : Int
  to_chain : Nat
  to_pseudo : Int
  strict : Bool
deriving DecidableEq, Repr

/-- `TimeLink.__eq__` from the source: equality of the ordering quadruple
(object identity and the strict flag are not consulted). -/
def TLink.keyEq (a b : TLink) : Bool :=
  a.from_chain == b.from_chain && a.from_pseudo == b.from_pseudo &&
    a.to_chain == b.to_chain && a.to_pseudo == b.to_pseudo

/-- Strict lexicographic order on the quadruple. -/
def keyLtB (a b : TLink) : Bool :=
  a.from_chain < b.from_chain ||
    (a.from_chain == b.from_chain && (a.from_pseudo < b.from_pseudo ||
      (a.from_pseudo == b.from_pseudo && (a.to_chain < b.to_chain ||
        (a.to_chain == b.to_chain && a.to_pseudo < b.to_pseudo)))))

/-- `test_insert` from `TimeLinkList.add`: insert in front of the head when
the head's quadruple is lexicographically ≥ the item's. -/
def test_insert (llist : List TLink) (item : TLink) : Bool :=
  match llist with
  | [] => true
  | lk :: _ =>
    lk.from_chain > item.from_chain ||
      (lk.from_chain == item.from_chain && (lk.from_pseudo > item.from_pseudo ||
        (lk.from_pseudo == item.from_pseudo && (lk.to_chain > item.to_chain ||
          (lk.to_chain == item.to_chain && lk.to_pseudo ≥ item.to_pseudo)))))

/-- `ins_here` from `TimeLinkList.add`: if the head has the item's key, keep
the stored link, making it strict when the item is strict; otherwise prepend
the item. -/
def ins_here (llist : List TLink) (item : TLink) : List TLink :=
  match llist with
  | [] => [item]
  | lk :: rest =>
    if lk.keyEq item then
      (if item.strict then { lk with strict := true } :: rest else lk :: rest)
    else item :: lk :: rest

/-- `ins_rec` from `TimeLinkList.add`. -/
def ins_rec : List TLink → TLink → List TLink
  | [], item => [item]
  | lk :: rest, item =>
    if test_insert (lk :: rest) item then ins_here (lk :: rest) item
    else lk :: ins_rec rest item

/-- `TimeLinkList.add`. -/
def add (l : List TLink) (item : TLink) : List TLink := ins_rec l item

/-- Helper for `TimeLinkList.remove`: Python `list.remove` deletes the first
element `==`-equal to the argument, and `TimeLink.__eq__` is key equality. -/
def removeFirstKey : List TLink → TLink → List TLink
  | [], _ => []
  | e :: rest, item => if e.keyEq item then rest else e :: removeFirstKey rest item

/-- `TimeLinkList.remove`: `if item in self.data: self.data.remove(item)`,
where both membership and removal use `TimeLink.__eq__` (key equality). -/
def remove (l : List TLink) (item : TLink) : List TLink :=
  if l.any (fun e => e.keyEq item) then removeFirstKey l item else l

end LinkList

/-! ## Chain-spine model of strictness propagation

`TimePoint.prop_min` walks forward through `descendants[0].to_tp` hops and
`TimePoint.prop_max` walks backward through `ancestors[0].from_tp` hops.  For
the claim about `add_strictness` the relevant state is exactly those two hop
sequences, modelled as lists: `desc` is the forward spine from `q`
(`q.descendants[0].to_tp`, then its `descendants[0].to_tp`, ...), `anc` the
backward spine from `p`.  For two same-chain points with `p.pseudo < q.pseudo`
the two spines and the two points are pairwise distinct heap objects, so plain
lists model the mutation faithfully. -/

namespace Spine

structure SPoint where
  pseudo : Int
  min_pseudo : TG.XInt
  max_pseudo : TG.XInt
deriving DecidableEq, Repr

/-- `TimePoint.prop_min` along the forward spine: set the minimum while it is
≥ the stored minimum (the guard `newmin > -inf` always holds for the integer
pseudo-times passed by the source), stop at the first point whose stored
minimum exceeds it. -/
def prop_min (newmin : Int) : List SPoint → List SPoint
  | [] => []
  | p :: rest =>
    if TG.XInt.le p.min_pseudo (TG.XInt.fin newmin) then
      { p with min_pseudo := TG.XInt.fin newmin } :: prop_min newmin rest
    else p :: rest

/-- `TimePoint.prop_max` along the backward spine: set the maximum while it is
≤ the stored maximum (the guard `newmax < inf` always holds for the integer
pseudo-times passed by the source), stop at the first point whose stored
maximum is below it. -/
def prop_max (newmax : Int) : List SPoint → List SPoint
  | [] => []
  | p :: rest =>
    if TG.XInt.le (TG.XInt.fin newmax) p.max_pseudo then
      { p with max_pseudo := TG.XInt.fin newmax } :: prop_max newmax rest
    else p :: rest

/-- `TimePoint.add_strictness(tp)` with `self = p`, `tp = q`; returns the
updated `(p, q, anc, desc)`.  The min phase sets `q.min_pseudo` and then runs
`q.prop_min`, whose first step re-applies the (idempotent) update to `q`
itself before walking `desc`.  In the max phase the source writes the new
maximum to a misspelled attribute (`self.max_psuedo`) that nothing ever reads;
the real update of `p.max_pseudo` happens inside `self.prop_max`, whose first
step applies to `p` itself before walking `anc` — modelled exactly so. -/
def add_strictness (p q : SPoint) (anc desc : List SPoint) :
    SPoint × SPoint × List SPoint × List SPoint :=
  let oldmin := q.min_pseudo
  let oldmax := p.max_pseudo
  let minres :=
    if oldmin == TG.XInt.ninf || TG.XInt.lt oldmin (TG.XInt.fin p.pseudo) then
      match prop_min p.pseudo ({ q with min_pseudo := TG.XInt.fin p.pseudo } :: desc) with
      | q1 :: d1 => (q1, d1)
      | [] => (q, desc)
    else (q, desc)
  let maxres :=
    if oldmax == TG.XInt.pinf || TG.XInt.lt (TG.XInt.fin q.pseudo) oldmax then
      match prop_max q.pseudo (p :: anc) with
      | p1 :: a1 => (p1, a1)
      | [] => (p, anc)
    else (p, anc)
  (maxres.1, minres.1, maxres.2, minres.2)

end Spine

/-! ### Reduction lemmas for the `Except` monad used by the embedding -/

@[simp] theorem epure_def {α : Type} (a : α) :
    (pure a : Except String α) = Except.ok a := rfl

@[simp] theorem ebind_ok {α β : Type} (a : α) (f : α → Except String β) :
    Except.bind (Except.ok a) f = f a := rfl

@[simp] theorem ebind_err {α β : Type} (e : String) (f : α → Except String β) :
    Except.bind (Except.error e) f = Except.error e := rfl

@[simp] theorem ebindM_ok {α β : Type} (a : α) (f : α → Except String β) :
    (Except.ok a : Except String α) >>= f = f a := rfl

@[simp] theorem ebindM_err {α β : Type} (e : String) (f : α → Except String β) :
    (Except.error e : Except String α) >>= f = Except.error e := rfl

@[simp] theorem emap_ok {α β : Type} (f : α → β) (a : α) :
    Except.map f (Except.ok a : Except String α) = Except.ok (f a) := rfl

@[simp] theorem emap_err {α β : Type} (f : α → β) (e : String) :
    Except.map f (Except.error e : Except String α) = Except.error e := rfl

/-! ## The timegraph heap model

Python objects are stored in arenas and referenced by index:
* `points` — `TimePoint` objects (a `TimePoint` reference is a `Nat` index),
* `links` — `TimeLink` objects,
* chains (`MetaNode`s) are identified by their `chain_number`, which is what
  both the `metagraph` dictionary and object identity reduce to in the source
  (a fresh `MetaNode` always receives a fresh number).
A `TimeLinkList` owned by a point is a list of link indices stored in the
point.  The `connections` list of a `MetaNode` is special: in the source the
constructor parameter defaults to `connections=TimeLinkList()`, a single list
object created once at class-definition time, and `TimeGraph.newchain` never
passes its own list — so every chain of every graph aliases that one shared
list.  It is modelled as the single state field `connections0`. -/

structure TimePoint where
  name : String
  chain : Option Nat
  pseudo : Int
  min_pseudo : XInt
  max_pseudo : XInt
  absolute_min : AbsTime
  absolute_max : AbsTime
  ancestors : List Nat
  xancestors : List Nat
  descendants : List Nat
  xdescendants : List Nat
  alternate_names : List String
deriving DecidableEq, Repr

structure TimeLink where
  from_tp : Nat
  to_tp : Nat
  strict : Bool
  duration_min : XInt
  duration_max : XInt
deriving DecidableEq, Repr

structure MetaNode where
  chain_number : Nat
  first : Option Nat
deriving DecidableEq, Repr

structure EventPoint where
  name : String
  start : String
  «end» : String
deriving DecidableEq, Repr

structure TimeGraph where
  chain_count : Nat
  timegraph : List (String × Nat)
  metagraph : List (Nat × MetaNode)
  events : List (String × EventPoint)
  rel_table : List (String × String)
  points : List TimePoint
  links : List TimeLink
  connections0 : List Nat
deriving DecidableEq, Repr

/-- `TimePoint.__init__(name, chain, pseudo)`: fresh bounds, fully-unknown
absolute times (distinct variable symbols, as in the source), empty link
lists. -/
def mkTimePoint (name : String) (chain : Option Nat) (pseudo : Int) : TimePoint :=
  { name := name, chain := chain, pseudo := pseudo,
    min_pseudo := .ninf, max_pseudo := .pinf,
    absolute_min := ⟨[.sym "y1", .sym "mo1", .sym "d1", .sym "h1", .sym "m1", .sym "s1"]⟩,
    absolute_max := ⟨[.sym "y2", .sym "mo2", .sym "d2", .sym "h2", .sym "m2", .sym "s2"]⟩,
    ancestors := [], xancestors := [], descendants := [], xdescendants := [],
    alternate_names := [] }

/-- `TimeGraph.__init__`. -/
def TimeGraph.init : TimeGraph :=
  { chain_count := 0, timegraph := [], metagraph := [], events := [],
    rel_table := [], points := [], links := [], connections0 := [] }

/-- Arena read for points (the default is irrelevant: every index read in a
modelled execution was previously allocated). -/
def getP (st : TimeGraph) (i : Nat) : TimePoint :=
  st.points.getD i (mkTimePoint "" none PSEUDO_INIT)

def setP (st : TimeGraph) (i : Nat) (p : TimePoint) : TimeGraph :=
  { st with points := st.points.set i p }

def modifyP (st : TimeGraph) (i : Nat) (f : TimePoint → TimePoint) : TimeGraph :=
  setP st i (f (getP st i))

/-- Arena read for links. -/
def getL (st : TimeGraph) (i : Nat) : TimeLink :=
  st.links.getD i { from_tp := 0, to_tp := 0, strict := false,
                    duration_min := .fin 0, duration_max := .pinf }

def setL (st : TimeGraph) (i : Nat) (l : TimeLink) : TimeGraph :=
  { st with links := st.links.set i l }

def modifyL (st : TimeGraph) (i : Nat) (f : TimeLink → TimeLink) : TimeGraph :=
  setL st i (f (getL st i))

/-- Dictionary write (`d[k] = v`): later entries shadow earlier ones. -/
def setChain (st : TimeGraph) (cn : Nat) (mn : MetaNode) : TimeGraph :=
  { st with metagraph := (cn, mn) :: st.metagraph }

/-- `TimeGraph.time_point`. -/
def time_point (st : TimeGraph) (name : String) : Option Nat :=
  List.lookup name st.timegraph

/-- `TimeGraph.time_chain`. -/
def time_chain (st : TimeGraph) (cn : Nat) : Option MetaNode :=
  List.lookup cn st.metagraph

/-- `TimeGraph.event_point`. -/
def event_point (st : TimeGraph) (name : String) : Option EventPoint :=
  List.lookup name st.events

/-- `TimeGraph.is_event` (the argument here is always a string). -/
def is_event (st : TimeGraph) (name : String) : Bool :=
  (event_point st name).isSome

/-- Python `==` on two `TimePoint` objects (`TimePoint.__eq__`): same chain
and same pseudo time. -/
def pointEqPy (st : TimeGraph) (i j : Nat) : Bool :=
  (getP st i).chain == (getP st j).chain && (getP st i).pseudo == (getP st j).pseudo

/-- `TimePoint.on_same_chain` (chain object identity = chain number). -/
def on_same_chain (st : TimeGraph) (i j : Nat) : Bool :=
  (getP st i).chain == (getP st j).chain

/-- `TimePoint.pseudo_before`. -/
def TimePoint.pseudo_before (p : TimePoint) : Int :=
  (if p.pseudo == PSEUDO_INIT then 0 else p.pseudo) - PSEUDO_INCREMENT

/-- `TimePoint.pseudo_after`. -/
def TimePoint.pseudo_after (p : TimePoint) : Int :=
  (if p.pseudo == PSEUDO_INIT then PSEUDO_INCREMENT else p.pseudo) + PSEUDO_INCREMENT

/-- `TimePoint.possibly_equal`. -/
def possibly_equal (p tp : TimePoint) : Bool :=
  XInt.lt p.min_pseudo (.fin tp.pseudo) && XInt.lt (.fin tp.pseudo) p.max_pseudo

/-- `TimePoint.find_pseudo` (the trailing unreachable `unknown` branch of the
source is dropped: integer comparison is total). -/
def find_pseudo (p tp : TimePoint) : String :=
  if p.pseudo == tp.pseudo then PRED_SAME_TIME
  else if p.pseudo < tp.pseudo then
    (if possibly_equal p tp then PRED_BEFORE else PRED_BEFORE ++ "-1")
  else
    (if possibly_equal p tp then PRED_AFTER else PRED_AFTER ++ "-1")

/-- `TimePoint.first_in_chain`. -/
def first_in_chain (p : TimePoint) : Bool := p.ancestors.isEmpty

/-- `TimePoint.last_in_chain`. -/
def last_in_chain (p : TimePoint) : Bool := p.descendants.isEmpty

/-- `TimePoint.first_desc`. -/
def first_desc (st : TimeGraph) (i : Nat) : Nat :=
  match (getP st i).descendants with
  | [] => i
  | l :: _ => (getL st l).to_tp

/-- `TimePoint.first_anc`. -/
def first_anc (st : TimeGraph) (i : Nat) : Nat :=
  match (getP st i).ancestors with
  | [] => i
  | l :: _ => (getL st l).from_tp

/-- `TimePoint.adjacent` (`self.first_desc() == tp`, Python `==` being
`TimePoint.__eq__`). -/
def adjacent (st : TimeGraph) (i j : Nat) : Bool :=
  pointEqPy st (first_desc st i) j

/-- `TimePoint.update_first` (the unreachable no-chain case leaves the state
unchanged; in the source every caller runs on a point with a chain). -/
def update_first (st : TimeGraph) (i : Nat) : TimeGraph :=
  match (getP st i).chain with
  | none => st
  | some cn =>
    match time_chain st cn with
    | none => st
    | some mn =>
      match mn.first with
      | none => setChain st cn { mn with first := some i }
      | some f =>
        if (getP st i).pseudo < (getP st f).pseudo then
          setChain st cn { mn with first := some i }
        else st

/-- `TimePoint.prop_min`: the fuel bounds the recursion depth; the source
guard `newmin > -inf` always holds for the integer arguments passed here. -/
def prop_min : Nat → TimeGraph → Nat → Int → TimeGraph
  | 0, st, _, _ => st
  | fuel + 1, st, pid, newmin =>
    let p := getP st pid
    if XInt.le p.min_pseudo (.fin newmin) then
      let st1 := setP st pid { p with min_pseudo := .fin newmin }
      match p.descendants with
      | [] => st1
      | l :: _ => prop_min fuel st1 (getL st1 l).to_tp newmin
    else st

/-- `TimePoint.prop_max`: the source guard `newmax < inf` always holds for the
integer arguments passed here. -/
def prop_max : Nat → TimeGraph → Nat → Int → TimeGraph
  | 0, st, _, _ => st
  | fuel + 1, st, pid, newmax =>
    let p := getP st pid
    if XInt.le (.fin newmax) p.max_pseudo then
      let st1 := setP st pid { p with max_pseudo := .fin newmax }
      match p.ancestors with
      | [] => st1
      | l :: _ => prop_max fuel st1 (getL st1 l).from_tp newmax
    else st

/-- `TimePoint.add_strictness(tp)` with `self = pid1`, `tp = pid2`.  In the
max phase the source writes the new maximum to a misspelled attribute
(`self.max_psuedo = newmax`) that is never read; the effective update of
`self.max_pseudo` happens inside `self.prop_max(newmax)`, whose first step
applies to `self` — modelled exactly so. -/
def add_strictness (fuel : Nat) (st : TimeGraph) (pid1 pid2 : Nat) : TimeGraph :=
  let oldmin := (getP st pid2).min_pseudo
  let oldmax := (getP st pid1).max_pseudo
  let st1 :=
    if oldmin == XInt.ninf || XInt.lt oldmin (.fin (getP st pid1).pseudo) then
      let newmin := (getP st pid1).pseudo
      let stA := modifyP st pid2 (fun p => { p with min_pseudo := .fin newmin })
      prop_min fuel stA pid2 newmin
    else st
  if oldmax == XInt.pinf || XInt.lt (.fin (getP st1 pid2).pseudo) oldmax then
    prop_max fuel st1 pid1 (getP st1 pid2).pseudo
  else st1

/-! ### TimeLinkList operations on the arena

These mirror `TimeLinkList.add` / `remove` working on lists of link indices,
with `TimeLink.__eq__` and the ordering key read from the current state. -/

/-- `TimeLink.from_chain_number` (every linked point sits on a chain, so the
default is never consulted in a modelled execution). -/
def from_chain_number (st : TimeGraph) (lid : Nat) : Nat :=
  ((getP st (getL st lid).from_tp).chain).getD 0

def from_pseudo (st : TimeGraph) (lid : Nat) : Int :=
  (getP st (getL st lid).from_tp).pseudo

def to_chain_number (st : TimeGraph) (lid : Nat) : Nat :=
  ((getP st (getL st lid).to_tp).chain).getD 0

def to_pseudo (st : TimeGraph) (lid : Nat) : Int :=
  (getP st (getL st lid).to_tp).pseudo

/-- `TimeLink.__eq__`. -/
def linkKeyEq (st : TimeGraph) (a b : Nat) : Bool :=
  from_chain_number st a == from_chain_number st b &&
    from_pseudo st a == from_pseudo st b &&
    to_chain_number st a == to_chain_number st b &&
    to_pseudo st a == to_pseudo st b

/-- `test_insert` of `TimeLinkList.add` on the arena. -/
def tll_test_insert (st : TimeGraph) (llist : List Nat) (item : Nat) : Bool :=
  match llist with
  | [] => true
  | lk :: _ =>
    from_chain_number st lk > from_chain_number st item ||
      (from_chain_number st lk == from_chain_number st item &&
        (from_pseudo st lk > from_pseudo st item ||
          (from_pseudo st lk == from_pseudo st item &&
            (to_chain_number st lk > to_chain_number st item ||
              (to_chain_number st lk == to_chain_number st item &&
                to_pseudo st lk ≥ to_pseudo st item)))))

/-- `ins_here` of `TimeLinkList.add` on the arena (the strict-flag update
mutates the stored link object). -/
def tll_ins_here (st : TimeGraph) (llist : List Nat) (item : Nat) :
    TimeGraph × List Nat :=
  match llist with
  | [] => (st, [item])
  | lk :: rest =>
    if linkKeyEq st lk item then
      if (getL st item).strict then
        (modifyL st lk (fun l => { l with strict := true }), lk :: rest)
      else (st, lk :: rest)
    else (st, item :: lk :: rest)

/-- `ins_rec` of `TimeLinkList.add` on the arena. -/
def tll_ins_rec (st : TimeGraph) : List Nat → Nat → TimeGraph × List Nat
  | [], item => (st, [item])
  | lk :: rest, item =>
    if tll_test_insert st (lk :: rest) item then tll_ins_here st (lk :: rest) item
    else
      let r := tll_ins_rec st rest item
      (r.1, lk :: r.2)

/-- `TimeLinkList.add` on the arena. -/
def tll_add (st : TimeGraph) (llist : List Nat) (item : Nat) : TimeGraph × List Nat :=
  tll_ins_rec st llist item

def tll_remove_aux (st : TimeGraph) : List Nat → Nat → List Nat
  | [], _ => []
  | l :: rest, item =>
    if linkKeyEq st l item then rest else l :: tll_remove_aux st rest item

/-- `TimeLinkList.remove` on the arena (membership and removal both via
`TimeLink.__eq__`). -/
def tll_remove (st : TimeGraph) (llist : List Nat) (item : Nat) : List Nat :=
  if llist.any (fun l => linkKeyEq st l item) then tll_remove_aux st llist item
  else llist

/-- `TimePoint.add_ancestor_link`. -/
def add_ancestor_link (st : TimeGraph) (pid lid : Nat) : TimeGraph :=
  let r := tll_add st (getP st pid).ancestors lid
  modifyP r.1 pid (fun p => { p with ancestors := r.2 })

/-- `TimePoint.add_descendant_link`. -/
def add_descendant_link (st : TimeGraph) (pid lid : Nat) : TimeGraph :=
  let r := tll_add st (getP st pid).descendants lid
  modifyP r.1 pid (fun p => { p with descendants := r.2 })

/-- `TimePoint.add_xancestor_link`. -/
def add_xancestor_link (st : TimeGraph) (pid lid : Nat) : TimeGraph :=
  let r := tll_add st (getP st pid).xancestors lid
  modifyP r.1 pid (fun p => { p with xancestors := r.2 })

/-- `TimePoint.add_xdescendant_link`. -/
def add_xdescendant_link (st : TimeGraph) (pid lid : Nat) : TimeGraph :=
  let r := tll_add st (getP st pid).xdescendants lid
  modifyP r.1 pid (fun p => { p with xdescendants := r.2 })

/-- `TimeGraph.add_meta_link`: on a cross-chain link, add it to the from
chain's `connections` — which is the one shared list `connections0`. -/
def add_meta_link (st : TimeGraph) (lid : Nat) : TimeGraph :=
  if !((getP st (getL st lid).from_tp).chain == (getP st (getL st lid).to_tp).chain) then
    match time_chain st (from_chain_number st lid) with
    | some _ =>
      let r := tll_add st st.connections0 lid
      { r.1 with connections0 := r.2 }
    | none => st
  else st

/-- `TimeGraph.remove_meta_link`. -/
def remove_meta_link (st : TimeGraph) (lid : Nat) : TimeGraph :=
  if !((getP st (getL st lid).from_tp).chain == (getP st (getL st lid).to_tp).chain) then
    match time_chain st (from_chain_number st lid) with
    | some _ => { st with connections0 := tll_remove st st.connections0 lid }
    | none => st
  else st

/-- `TimeGraph.add_link` (the source computes `strict_p(strict12)` once, at
construction of the link; call sites pass that boolean here). -/
def add_link (st : TimeGraph) (pid1 pid2 : Nat) (strictb : Bool) :
    TimeGraph × Option Nat :=
  if !(pointEqPy st pid1 pid2) then
    let tl : TimeLink := { from_tp := pid1, to_tp := pid2, strict := strictb,
                           duration_min := .fin 0, duration_max := .pinf }
    let lid := st.links.length
    let st1 := { st with links := st.links ++ [tl] }
    if (getP st1 pid1).chain == (getP st1 pid2).chain then
      (add_ancestor_link (add_descendant_link st1 pid1 lid) pid2 lid, some lid)
    else
      (add_meta_link (add_xancestor_link (add_xdescendant_link st1 pid1 lid) pid2 lid) lid,
       some lid)
  else (st, none)

/-! ### Absolute-time propagation -/

/-- `TimePoint.duration_between`. -/
def duration_between (p q : TimePoint) : XInt × XInt :=
  (p.absolute_max.calc_duration_min q.absolute_min,
   p.absolute_min.calc_duration_max q.absolute_max)

/-- `TimePoint.compare_absolute_times`. -/
def compare_absolute_times (p q : TimePoint) : String :=
  let test1 := q.absolute_max.compare p.absolute_min
  let test2 := p.absolute_max.compare q.absolute_min
  let test3 := p.absolute_min.compare q.absolute_min
  let test4 := p.absolute_max.compare q.absolute_max
  if test_point_answer PRED_BEFORE test2 then
    (if PREDS_EQUIV.contains test2 then PRED_BEFORE else test2)
  else if test_point_answer PRED_BEFORE test1 then
    (if (PREDS_EQUIV ++ [PRED_BEFORE]).contains test1 then PRED_AFTER else PRED_AFTER ++ "-1")
  else if test_point_answer PRED_EQUAL test3 && test_point_answer PRED_EQUAL test4 then
    PRED_SAME_TIME
  else PRED_UNKNOWN

mutual

/-- `TimePoint.prop_absmin`: propagate to the first in-chain descendant, then
to every cross-chain descendant. -/
def prop_absmin : Nat → TimeGraph → Nat → Except String TimeGraph
  | 0, _, _ => .error "out of fuel"
  | fuel + 1, st, pid => do
    let p := getP st pid
    let st1 ←
      match p.descendants with
      | [] => pure st
      | l :: _ => prop_min_to_point fuel st l
    prop_absmin_xlist fuel st1 p.xdescendants

def prop_absmin_xlist : Nat → TimeGraph → List Nat → Except String TimeGraph
  | 0, _, _ => .error "out of fuel"
  | _ + 1, st, [] => pure st
  | fuel + 1, st, l :: rest => do
    let st1 ← prop_min_to_point fuel st l
    prop_absmin_xlist fuel st1 rest

/-- `TimeLink.prop_min_to_point`. -/
def prop_min_to_point : Nat → TimeGraph → Nat → Except String TimeGraph
  | 0, _, _ => .error "out of fuel"
  | fuel + 1, st, lid => do
    let lk := getL st lid
    let pt1 := getP st lk.from_tp
    let pt2 := getP st lk.to_tp
    let pt1abs := pt1.absolute_min
    let pt1max := pt1.absolute_max
    let pt2abs := pt2.absolute_min
    let mx := pt2.absolute_max
    let durmin := lk.duration_min
    let durabs := pt1max.calc_duration_min pt2abs
    let usedur := duration_min durmin durabs
    let newabs := pt1abs.re_calc_abs_min pt2abs mx usedur
    if !(newabs == pt2abs) then
      let st1 := modifyP st lk.to_tp (fun p => { p with absolute_min := newabs })
      prop_absmin fuel st1 lk.to_tp
    else pure st

end

/-- `TimePoint.update_absolute_min`. -/
def update_absolute_min (fuel : Nat) (st : TimeGraph) (pid : Nat) (abs_ : AbsTime) :
    Except String TimeGraph :=
  let p := getP st pid
  let mx := p.absolute_max
  let oldabs := p.absolute_min
  let newabs := oldabs.merge_abs_min abs_ mx
  if !(oldabs == newabs) then do
    let st1 := setP st pid { p with absolute_min := newabs }
    prop_absmin fuel st1 pid
  else pure st

/-- `TimeLink.prop_max_to_point`: when the candidate bound actually tightens,
the source sets `pt2.absolute_max` and then calls `pt2.prop_absmax()` without
the required `oldabs` argument, raising `TypeError`; the whole entry aborts,
modelled as an error (no claim exercises this path). -/
def prop_max_to_point (st : TimeGraph) (lid : Nat) (oldabs : AbsTime) :
    Except String TimeGraph :=
  let lk := getL st lid
  let pt1 := getP st lk.to_tp
  let pt2 := getP st lk.from_tp
  let pt1abs := pt1.absolute_max
  let pt2min := pt2.absolute_min
  let pt2abs := pt2.absolute_max
  let durmin := lk.duration_min
  let durabs := oldabs.calc_duration_min pt2min
  let usedur := duration_min durmin durabs
  let newabs := pt1abs.re_calc_abs_max pt2abs pt2min usedur
  if !(newabs == pt2abs) then
    .error "TypeError: prop_absmax() missing 1 required positional argument"
  else pure st

def prop_absmax_xlist (st : TimeGraph) (oldabs : AbsTime) :
    List Nat → Except String TimeGraph
  | [] => pure st
  | l :: rest => do
    let st1 ← prop_max_to_point st l oldabs
    prop_absmax_xlist st1 oldabs rest

/-- `TimePoint.prop_absmax`. -/
def prop_absmax (st : TimeGraph) (pid : Nat) (oldabs : AbsTime) :
    Except String TimeGraph := do
  let p := getP st pid
  let st1 ←
    match p.ancestors with
    | [] => pure st
    | l :: _ => prop_max_to_point st l oldabs
  prop_absmax_xlist st1 oldabs p.xancestors

/-- `TimePoint.update_absolute_max`. -/
def update_absolute_max (st : TimeGraph) (pid : Nat) (abs_ : AbsTime) :
    Except String TimeGraph :=
  let p := getP st pid
  let mn := p.absolute_min
  let oldabs := p.absolute_max
  let newabs := oldabs.merge_abs_max abs_ mn
  if !(oldabs == newabs) then do
    let st1 := setP st pid { p with absolute_max := newabs }
    prop_absmax st1 pid oldabs
  else pure st

/-! ### Durations on links -/

/-- `TimeLink.calc_duration`. -/
def TimeLink.calc_duration (st : TimeGraph) (lid : Nat) : XInt × XInt :=
  let lk := getL st lid
  get_best_duration (duration_between (getP st lk.from_tp) (getP st lk.to_tp))
    (lk.duration_min, lk.duration_max)

/-- `TimeLink.update_duration_min`. -/
def update_duration_min (fuel : Nat) (st : TimeGraph) (lid : Nat) (d : XInt) :
    Except String TimeGraph :=
  let l := getL st lid
  if (XInt.lt (.fin 0) d && !l.strict) || (!l.duration_min.truthy || XInt.lt l.duration_min d) then
    let tp1 := l.from_tp
    let tp2 := l.to_tp
    let st1 :=
      if XInt.lt (.fin 0) d && !l.strict then
        let stA := modifyL st lid (fun lk => { lk with strict := true })
        if on_same_chain stA tp1 tp2 then add_strictness fuel stA tp1 tp2 else stA
      else st
    if !l.duration_min.truthy || XInt.lt l.duration_min d then do
      let st2 := modifyL st1 lid (fun lk => { lk with duration_min := d })
      let st3 ← update_absolute_max st2 tp1 ((getP st2 tp2).absolute_max.calc_sub_dur d)
      update_absolute_min fuel st3 tp2 ((getP st3 tp1).absolute_min.calc_add_dur d)
    else pure st1
  else pure st

/-- `TimeLink.update_duration_max`. -/
def update_duration_max (st : TimeGraph) (lid : Nat) (d : XInt) : TimeGraph :=
  let l := getL st lid
  if !l.duration_max.truthy || XInt.lt d l.duration_max then
    modifyL st lid (fun lk => { lk with duration_max := d })
  else st

/-- `TimeGraph.find_link`. -/
def find_link (st : TimeGraph) (pid1 pid2 : Nat) : TimeGraph × Option Nat :=
  let chain2 := (getP st pid2).chain
  let pseudo2 := (getP st pid2).pseudo
  let dlist := if on_same_chain st pid1 pid2 then (getP st pid1).descendants
               else (getP st pid1).xdescendants
  match dlist.find? (fun item =>
      (getP st (getL st item).to_tp).chain == chain2 &&
        (getP st (getL st item).to_tp).pseudo == pseudo2) with
  | some lid => (st, some lid)
  | none => add_link st pid1 pid2 (strict_p 1)

/-- `TimeGraph.new_duration_min` (a missing link — `add_link` returning None
for identical points — would be an `AttributeError` in the source). -/
def new_duration_min (fuel : Nat) (st : TimeGraph) (pid1 pid2 : Nat) (d : XInt) :
    Except String TimeGraph :=
  let r := find_link st pid1 pid2
  match r.2 with
  | none => .error "AttributeError: NoneType has no attribute update_duration_min"
  | some lid => update_duration_min fuel r.1 lid d

/-- `TimeGraph.new_duration_max`. -/
def new_duration_max (st : TimeGraph) (pid1 pid2 : Nat) (d : XInt) :
    Except String TimeGraph :=
  let r := find_link st pid1 pid2
  match r.2 with
  | none => .error "AttributeError: NoneType has no attribute update_duration_max"
  | some lid => pure (update_duration_max r.1 lid d)

/-- `TimeGraph.add_duration_min`. -/
def add_duration_min (fuel : Nat) (st : TimeGraph) (n1 n2 : String) (d : XInt) :
    Except String TimeGraph :=
  match time_point st n1, time_point st n2 with
  | some p1, some p2 => new_duration_min fuel st p1 p2 d
  | _, _ => .error ("One of " ++ n1 ++ " or " ++ n2 ++ " does not exist in the timegraph.")

/-- `TimeGraph.add_duration_max`. -/
def add_duration_max (st : TimeGraph) (n1 n2 : String) (d : XInt) :
    Except String TimeGraph :=
  match time_point st n1, time_point st n2 with
  | some p1, some p2 => new_duration_max st p1 p2 d
  | _, _ => .error ("One of " ++ n1 ++ " or " ++ n2 ++ " does not exist in the timegraph.")

/-! ### Link rewiring (used by node collapsing) -/

inductive LinkField where
  | ancestors | descendants | xancestors | xdescendants
deriving DecidableEq, Repr

def getField (p : TimePoint) : LinkField → List Nat
  | .ancestors => p.ancestors
  | .descendants => p.descendants
  | .xancestors => p.xancestors
  | .xdescendants => p.xdescendants

def setField (p : TimePoint) : LinkField → List Nat → TimePoint
  | .ancestors, l => { p with ancestors := l }
  | .descendants, l => { p with descendants := l }
  | .xancestors, l => { p with xancestors := l }
  | .xdescendants, l => { p with xdescendants := l }

/-- `POINT_LINK_PAIRS` from constants.py. -/
def POINT_LINK_PAIRS : LinkField → LinkField
  | .descendants => .ancestors
  | .ancestors => .descendants
  | .xdescendants => .xancestors
  | .xancestors => .xdescendants

/-- `TimeGraph.remove_link(timelink, linklist)` where the list is the `f`
field of point `pid`. -/
def remove_link (st : TimeGraph) (lid : Nat) (pid : Nat) (f : LinkField) : TimeGraph :=
  let st1 := remove_meta_link st lid
  modifyP st1 pid (fun p => setField p f (tll_remove st1 (getField p f) lid))

def update_links_go (fuel : Nat) (ty : LinkField) (pid2 : Nat) :
    TimeGraph → List Nat → Except String TimeGraph
  | st, [] => pure st
  | st, link :: rest => do
    let isDesc := ty == LinkField.descendants || ty == LinkField.xdescendants
    let tp := if isDesc then (getL st link).to_tp else (getL st link).from_tp
    let durmin := (getL st link).duration_min
    let durmax := (getL st link).duration_max
    let st1 := remove_link st link tp (POINT_LINK_PAIRS ty)
    let st2 ←
      if isDesc then do
        let stA := (add_link st1 pid2 tp (getL st1 link).strict).1
        let stB ← new_duration_min fuel stA pid2 tp durmin
        new_duration_max stB pid2 tp durmax
      else do
        let stA := (add_link st1 tp pid2 (getL st1 link).strict).1
        let stB ← new_duration_min fuel stA tp pid2 durmin
        new_duration_max stB tp pid2 durmax
    update_links_go fuel ty pid2 st2 rest

/-- `TimeGraph.update_links` (the iterated list is `tp1`'s own `ty` list,
which the loop body never mutates — only the partner points' lists and fresh
links change — so the snapshot is faithful). -/
def update_links (fuel : Nat) (st : TimeGraph) (pid1 pid2 : Nat) (ty : LinkField) :
    Except String TimeGraph :=
  update_links_go fuel ty pid2 st (getField (getP st pid1) ty)

/-- `TimeGraph.copy_links`. -/
def copy_links (fuel : Nat) (st : TimeGraph) (pid1 pid2 : Nat) :
    Except String TimeGraph := do
  let st1 ← update_links fuel st pid1 pid2 .ancestors
  let st2 ← update_links fuel st1 pid1 pid2 .xancestors
  let st3 ← update_links fuel st2 pid1 pid2 .descendants
  update_links fuel st3 pid1 pid2 .xdescendants

/-! ### Chains, points, renaming -/

/-- `TimeGraph.newchain` — the fresh `MetaNode` keeps the shared default
`connections` list (see the model notes above), so only its number and empty
`first` are stored. -/
def newchain (st : TimeGraph) : TimeGraph × Nat :=
  let cn := st.chain_count
  ({ st with metagraph := (cn, { chain_number := cn, first := none }) :: st.metagraph,
             chain_count := cn + 1 }, cn)

/-- `TimeGraph.add_single`. -/
def add_single (st : TimeGraph) (name : String) : TimeGraph × Nat :=
  let r := newchain st
  let pid := r.1.points.length
  let tp := mkTimePoint name (some r.2) PSEUDO_INIT
  let st2 := { r.1 with points := r.1.points ++ [tp],
                        timegraph := (name, pid) :: r.1.timegraph }
  (update_first st2 pid, pid)

/-- `TimeGraph.update_point` (Python set.add on `alternate_names` modelled as
duplicate-free append). -/
def update_point (st : TimeGraph) (name : String) (newpid : Nat) : TimeGraph :=
  let st1 := modifyP st newpid (fun p =>
    if p.alternate_names.contains name then p
    else { p with alternate_names := p.alternate_names ++ [name] })
  { st1 with timegraph := (name, newpid) :: st1.timegraph }

def unionNames (a b : List String) : List String :=
  a ++ b.filter (fun x => !a.contains x)

/-- `TimeGraph.merge_names`. -/
def merge_names (st : TimeGraph) (pid1 pid2 : Nat) : TimeGraph :=
  let names := (getP st pid2).alternate_names
  let st1 := names.foldl (fun s n => update_point s n pid1) st
  let st2 := modifyP st1 pid1 (fun p =>
    { p with alternate_names := unionNames p.alternate_names (getP st1 pid2).alternate_names })
  update_point st2 (getP st2 pid2).name pid1

/-- `TimeGraph.add_absolute_min`. -/
def add_absolute_min (fuel : Nat) (st : TimeGraph) (t : Sum String Nat) (abs_ : AbsTime) :
    Except String TimeGraph :=
  match t with
  | .inl name =>
    match time_point st name with
    | none =>
      let r := add_single st name
      update_absolute_min fuel r.1 r.2 abs_
    | some pid => update_absolute_min fuel st pid abs_
  | .inr pid => update_absolute_min fuel st pid abs_

/-- `TimeGraph.add_absolute_max`. -/
def add_absolute_max (st : TimeGraph) (t : Sum String Nat) (abs_ : AbsTime) :
    Except String TimeGraph :=
  match t with
  | .inl name =>
    match time_point st name with
    | none =>
      let r := add_single st name
      update_absolute_max r.1 r.2 abs_
    | some pid => update_absolute_max st pid abs_
  | .inr pid => update_absolute_max st pid abs_

/-- `MetaNode.renumber`'s inner `renumber_next`. -/
def renumber_next : Nat → TimeGraph → Nat → TimeGraph
  | 0, st, _ => st
  | fuel + 1, st, last =>
    match (getP st last).descendants with
    | [] => st
    | d :: _ =>
      let pid := (getL st d).to_tp
      let st1 := modifyP st pid (fun p => { p with pseudo := (getP st last).pseudo_after })
      renumber_next fuel st1 pid

/-- `MetaNode.renumber` (a chain without a `first` would crash in the source;
unreachable at the modelled call sites). -/
def renumber (fuel : Nat) (st : TimeGraph) (cn : Nat) : TimeGraph :=
  match time_chain st cn with
  | none => st
  | some mn =>
    match mn.first with
    | none => st
    | some f =>
      let st1 := modifyP st f (fun p => { p with pseudo := PSEUDO_INIT })
      renumber_next fuel st1 f

/-- `TimePoint.pseudo_between` (renumbers the chain when fewer than 10 pseudo
units separate the two points). -/
def pseudo_between (fuel : Nat) (st : TimeGraph) (selfId tpId : Nat) : TimeGraph × Int :=
  let p1 := (getP st selfId).pseudo
  let p2 := (getP st tpId).pseudo
  let r :=
    if (p2 - p1).natAbs < 10 then
      let stA := renumber fuel st (((getP st selfId).chain).getD 0)
      (stA, (getP stA selfId).pseudo, (getP stA tpId).pseudo)
    else (st, p1, p2)
  let p1' := if r.2.1 == PSEUDO_INIT then 0 else r.2.1
  let p2' := if r.2.2 == PSEUDO_INIT then 0 else r.2.2
  (r.1, ((p2' - p1') * 9).fdiv 10 + p1')

/-- `TimePoint.check_first` (replacing a point that is its chain's `first`). -/
def check_first (fuel : Nat) (st : TimeGraph) (pid : Nat) : TimeGraph :=
  match (getP st pid).chain with
  | none => st
  | some cn =>
    match time_chain st cn with
    | none => st
    | some mn =>
      match mn.first with
      | none => st
      | some f =>
        if (getP st pid).name == (getP st f).name then
          let newp := first_desc st pid
          let st1 := setChain st cn { mn with first := some newp }
          if (getP st1 newp).min_pseudo == (getP st1 pid).min_pseudo then
            prop_min fuel st1 (first_desc st1 newp) (getP st1 newp).pseudo
          else st1
        else st

/-! ### Path search and queries -/

/-- Value space of the `sofar` / strictness arguments flowing through the
path-search helpers: Python passes None, predicate strings, or the boolean
`strict` flag of a link. -/
inductive CPV where
  | noneV : CPV
  | strV : String → CPV
  | boolV : Bool → CPV
deriving DecidableEq, Repr

/-- `strict_p` applied to a path value (1, "1" or True). -/
def cpv_strict_p : CPV → Bool
  | .strV s => s == "1"
  | .boolV b => b
  | .noneV => false

/-- `combine_path` (module-level function in timegraph.py). -/
def combine_path (s1 s2 : CPV) : String :=
  let strict_before := PRED_BEFORE ++ "-1"
  if s1 == .strV strict_before || s2 == .strV strict_before ||
      s1 == .boolV true || s2 == .boolV true || cpv_strict_p s2 then
    strict_before
  else PRED_BEFORE

/-- `calc_path` (module-level in timegraph.py): combine `sofar` with the
chain-internal leg `path` and the link's strict flag. -/
def calc_path (sofar : CPV) (path : String) (strict : Bool) : String :=
  combine_path sofar (.strV (combine_path (.strV path) (.boolV strict)))

/-- `check_chain` (module-level in timegraph.py). -/
def check_chain (st : TimeGraph) (sofar : CPV) (tpId : Nat) (lid : Nat) : Option String :=
  let path := find_pseudo (getP st (getL st lid).to_tp) (getP st tpId)
  if test_point_answer PRED_BEFORE path then some (combine_path sofar (.strV path))
  else none

mutual

/-- `TimeGraph.search_meta`.  The fuel bounds the total number of recursive
steps (every call decrements it) but otherwise the control flow — memo table,
early return of a strict path that bypasses the memo write, saving a
non-strict answer and continuing — mirrors the source exactly. -/
def search_meta : Nat → TimeGraph → Nat → Nat → List Nat → CPV →
    TimeGraph × Option String
  | 0, st, _, _, _, _ => (st, none)
  | fuel + 1, st, tp1, tp2, already, sofar =>
    match List.lookup (getP st tp1).name st.rel_table with
    | some v => (st, some v)
    | none =>
      let xlist := match (getP st tp1).chain with
        | some _ => st.connections0
        | none => []
      match search_meta_loop fuel st tp1 tp2 already sofar xlist none none with
      | .inl r => (r.1, some r.2)
      | .inr r =>
        let res := r.2.1
        let saveres := r.2.2
        let res1 := if res == none || res == some PRED_UNKNOWN then saveres else res
        let res2 := match res1 with
          | none => PRED_UNKNOWN
          | some s => s
        let st1 := { r.1 with rel_table := ((getP r.1 tp1).name, res2) :: r.1.rel_table }
        (st1, if res2 == PRED_UNKNOWN then none else some res2)

/-- The for-loop of `search_meta` over the chain's connection list, carrying
`res` and `saveres`; `.inl` is the early `return res` of a strict path. -/
def search_meta_loop : Nat → TimeGraph → Nat → Nat → List Nat → CPV →
    List Nat → Option String → Option String →
    Sum (TimeGraph × String) (TimeGraph × Option String × Option String)
  | 0, st, _, _, _, _, _, res, saveres => .inr (st, res, saveres)
  | _ + 1, st, _, _, _, _, [], res, saveres => .inr (st, res, saveres)
  | fuel + 1, st, tp1, tp2, already, sofar, item :: rest, res, saveres =>
    let frompt := (getL st item).from_tp
    let topt := (getL st item).to_tp
    let path1 := find_pseudo (getP st tp1) (getP st frompt)
    let newchainno := to_chain_number st item
    if test_point_answer PRED_BEFORE path1 then
      let newsofar := calc_path sofar path1 (getL st item).strict
      let r1 :=
        if (getP st tp2).chain == some newchainno then
          (st, check_chain st (.strV newsofar) tp2 item)
        else if !(already.contains newchainno) then
          search_meta fuel st topt tp2 (newchainno :: already) (.strV newsofar)
        else (st, res)
      match r1.2 with
      | some s =>
        if s != PRED_UNKNOWN then
          if s == PRED_BEFORE ++ "-1" then .inl (r1.1, s)
          else search_meta_loop fuel r1.1 tp1 tp2 already sofar rest none (some s)
        else search_meta_loop fuel r1.1 tp1 tp2 already sofar rest (some s) saveres
      | none => search_meta_loop fuel r1.1 tp1 tp2 already sofar rest none saveres
    else search_meta_loop fuel st tp1 tp2 already sofar rest res saveres

end

/-- `TimeGraph.search_path`: reset the scratch `rel_table` around the search. -/
def search_path (fuel : Nat) (st : TimeGraph) (tp1 tp2 : Nat) :
    TimeGraph × Option String :=
  let st1 := { st with rel_table := [] }
  let r := search_meta fuel st1 tp1 tp2 [((getP st1 tp1).chain).getD 0] .noneV
  ({ r.1 with rel_table := [] }, r.2)

/-- `TimeGraph.find_reln`. -/
def find_reln (fuel : Nat) (st : TimeGraph) (tp1 tp2 : Nat) (effort : Int) :
    TimeGraph × String :=
  let result := PRED_UNKNOWN
  let result := if pointEqPy st tp1 tp2 then PRED_SAME_TIME else result
  let result := if on_same_chain st tp1 tp2 then find_pseudo (getP st tp1) (getP st tp2)
                else result
  let rb :=
    if result == PRED_UNKNOWN then
      let r := compare_absolute_times (getP st tp1) (getP st tp2)
      if PREDS_EQUIV.contains r && effort > 0 then (PRED_UNKNOWN, r)
      else (r, PRED_UNKNOWN)
    else (result, PRED_UNKNOWN)
  let result := rb.1
  let backup := rb.2
  let sr :=
    if result == PRED_UNKNOWN && effort > 0 then
      let r1 := search_path fuel st tp1 tp2
      match r1.2 with
      | some p => (r1.1, p)
      | none =>
        let r2 := search_path fuel r1.1 tp2 tp1
        match inverse_reln r2.2 with
        | some p => (r2.1, p)
        | none => (r2.1, PRED_UNKNOWN)
    else (st, result)
  if sr.2 == PRED_UNKNOWN && !(backup == PRED_UNKNOWN) then (sr.1, backup)
  else sr

/-- A point-or-absolute-time argument (`find_point`'s admissible types). -/
inductive PAVal where
  | pt : Nat → PAVal
  | abs : AbsTime → PAVal
deriving DecidableEq, Repr

/-- Python `==` between two point-or-absolute values. `TimePoint.__eq__`
asserts its argument is a `TimePoint`, so a mixed comparison raises
(reflected dispatch ends in the same assert); the missing real
`AbsTime.__eq__` is structural equality on the slots. -/
def pyEqPA (st : TimeGraph) : PAVal → PAVal → Except String Bool
  | .pt i, .pt j => pure (pointEqPy st i j)
  | .abs a, .abs b => pure (a == b)
  | .pt _, .abs _ => .error "AssertionError: TimePoint.__eq__ expects a TimePoint"
  | .abs _, .pt _ => .error "AssertionError: TimePoint.__eq__ expects a TimePoint"

/-- `TimeGraph.abs_relation`. -/
def abs_relation (st : TimeGraph) (a : AbsTime) (tp : Option Nat) : String :=
  match tp with
  | none => PRED_UNKNOWN
  | some i =>
    let res1 := a.compare (getP st i).absolute_min
    let res2 := a.compare (getP st i).absolute_max
    if test_point_answer PRED_EQUAL res1 && test_point_answer PRED_EQUAL res2 then
      PRED_SAME_TIME
    else if test_point_answer PRED_BEFORE res1 then
      (if PREDS_EQUIV.contains res1 then PRED_BEFORE else res1)
    else if test_point_answer PRED_AFTER res2 then
      (if PREDS_EQUIV.contains res2 then PRED_AFTER else res2)
    else PRED_UNKNOWN

mutual

/-- `TimeGraph.find_point` (asserts both arguments are points or absolute
times — a missing point is an `AssertionError` in the source). -/
def find_point : Nat → TimeGraph → Option PAVal → Option PAVal → Int →
    Except String (TimeGraph × String)
  | 0, _, _, _, _ => .error "out of fuel"
  | fuel + 1, st, some x, some y, effort => do
    let b ← pyEqPA st x y
    if b then pure (st, PRED_SAME_TIME)
    else
      match x, y with
      | .pt i, .pt j => pure (find_reln fuel st i j effort)
      | _, _ => find_absolute fuel st (some x) (some y) effort
  | _ + 1, _, _, _, _ => .error "AssertionError: find_point expects TimePoint or AbsTime"

/-- `TimeGraph.find_absolute`. -/
def find_absolute : Nat → TimeGraph → Option PAVal → Option PAVal → Int →
    Except String (TimeGraph × String)
  | 0, _, _, _, _ => .error "out of fuel"
  | fuel + 1, st, a1, a2, effort =>
    match a1 with
    | some (.abs x) =>
      match a2 with
      | some (.abs y) => pure (st, x.compare y)
      | some (.pt j) => pure (st, abs_relation st x (some j))
      | none => pure (st, PRED_UNKNOWN)
    | some (.pt i) =>
      match a2 with
      | some (.abs y) => pure (st, inverse_relnS (abs_relation st y (some i)))
      | some (.pt _) => find_point fuel st a1 a2 effort
      | none => pure (st, PRED_UNKNOWN)
    | none => pure (st, PRED_UNKNOWN)

end

/-- A resolved `relation` argument: time point, event, or absolute time. -/
inductive RVal where
  | pt : Nat → RVal
  | ev : EventPoint → RVal
  | abs : AbsTime → RVal
deriving DecidableEq, Repr

/-- `TimeGraph.get_start` (a falsy argument gives None; an event resolves its
start name through the point table, which may itself be missing). -/
def get_start (st : TimeGraph) : Option RVal → Option PAVal
  | none => none
  | some (.ev e) => (time_point st e.start).map PAVal.pt
  | some (.abs a) => some (.abs a)
  | some (.pt i) => some (.pt i)

/-- `TimeGraph.get_end`. -/
def get_end (st : TimeGraph) : Option RVal → Option PAVal
  | none => none
  | some (.ev e) => (time_point st e.«end»).map PAVal.pt
  | some (.abs a) => some (.abs a)
  | some (.pt i) => some (.pt i)

/-- Python `==` on resolved `find_relation` arguments.  `None == None` is
True; `None` against a `TimePoint` dispatches (directly or reflected) into
`TimePoint.__eq__`, whose assert fails; `EventPoint` has no `__eq__`, so
comparison against it falls back to object identity (events are unique per
name). -/
def pyEqR (st : TimeGraph) : Option RVal → Option RVal → Except String Bool
  | none, none => pure true
  | none, some (.pt _) => .error "AssertionError: TimePoint.__eq__ expects a TimePoint"
  | some (.pt _), none => .error "AssertionError: TimePoint.__eq__ expects a TimePoint"
  | none, some (.ev _) => pure false
  | some (.ev _), none => pure false
  | some (.pt i), some (.pt j) => pure (pointEqPy st i j)
  | some (.ev e), some (.ev f) => pure (e.name == f.name)
  | some (.pt _), some (.ev _) => .error "AssertionError: TimePoint.__eq__ expects a TimePoint"
  | some (.ev _), some (.pt _) => .error "AssertionError: TimePoint.__eq__ expects a TimePoint"
  | some (.abs _), _ => .error "unreachable: AbsTime operand in find_relation"
  | _, some (.abs _) => .error "unreachable: AbsTime operand in find_relation"

def isPtOrEv : Option RVal → Bool
  | some (.pt _) => true
  | some (.ev _) => true
  | _ => false

def isEvR : Option RVal → Bool
  | some (.ev _) => true
  | _ => false

/-- `TimeGraph.find_relation`. -/
def find_relation (fuel : Nat) (st : TimeGraph) (a1 a2 : Option RVal) (effort : Int) :
    Except String (TimeGraph × String) := do
  let b ← pyEqR st a1 a2
  if b then pure (st, PRED_SAME_TIME)
  else if !(isPtOrEv a1 && isPtOrEv a2) then pure (st, PRED_UNKNOWN)
  else
    let a1start := get_start st a1
    let a1end := get_end st a1
    let a2start := get_start st a2
    let a2end := get_end st a2
    let isa1event := isEvR a1
    let isa2event := isEvR a2
    do
      let r1 ← find_point fuel st a1end a2start effort
      let st := r1.1
      let e1s2 := r1.2
      let result :=
        if test_point_answer PRED_BEFORE e1s2 || (!isa1event && !isa2event) then
          (if PREDS_EQUIV.contains e1s2 && (isa1event || isa2event) then PRED_BEFORE ++ "-0"
           else e1s2)
        else PRED_UNKNOWN
      if !(result == PRED_UNKNOWN) || !(isa1event || isa2event) then pure (st, result)
      else do
        let r2 ← find_point fuel st a1start a2end effort
        let st := r2.1
        let s1e2 := r2.2
        let result :=
          if test_point_answer PRED_AFTER s1e2 then
            (if PREDS_EQUIV.contains s1e2 && (isa1event || isa2event) then PRED_AFTER ++ "-0"
             else s1e2)
          else result
        if !(result == PRED_UNKNOWN) then pure (st, result)
        else do
          let r3 ← find_point fuel st a1start a2start effort
          let r4 ← find_point fuel r3.1 a1end a2end effort
          let st := r4.1
          let s1s2 := r3.2
          let e1e2 := r4.2
          let result :=
            if test_point_answer PRED_EQUAL s1s2 && test_point_answer PRED_EQUAL e1e2 then
              PRED_SAME_TIME
            else result
          if !(result == PRED_UNKNOWN) then pure (st, result)
          else
            let strict1 : Int := if PREDS_EQUIV.contains s1s2 then 0
                                 else (split_time_pred s1s2).2.1
            let strict2 : Int := if PREDS_EQUIV.contains e1e2 then 0
                                 else (split_time_pred e1e2).2.1
            let result :=
              if test_point_answer PRED_AFTER s1s2 then
                (if test_point_answer PRED_BEFORE e1e2 then
                   build_pred PRED_DURING strict1 strict2
                 else if test_point_answer PRED_AFTER e1e2 then
                   build_pred PRED_OVERLAPPED_BY strict1 strict2
                 else result)
              else result
            let result :=
              if test_point_answer PRED_BEFORE s1s2 then
                (if test_point_answer PRED_BEFORE e1e2 then
                   build_pred PRED_OVERLAPS strict1 strict2
                 else if test_point_answer PRED_AFTER e1e2 then
                   build_pred PRED_CONTAINS strict1 strict2
                 else result)
              else result
            pure (st, result)

/-- `TimeGraph.find_absolute_reln`. -/
def find_absolute_reln (fuel : Nat) (st : TimeGraph) (a1 a2 : Option RVal) (effort : Int) :
    Except String (TimeGraph × String) :=
  match a1, a2 with
  | some (.abs x), some (.abs y) =>
    find_absolute fuel st (some (.abs x)) (some (.abs y)) effort
  | _, _ => do
    let a1start := get_start st a1
    let a2start := get_start st a2
    let a1end := get_end st a1
    let a2end := get_end st a2
    let r1 ← find_absolute fuel st a1start a2end effort
    let r2 ← find_absolute fuel r1.1 a1end a2start effort
    let st := r2.1
    let res1 := r1.2
    let res2 := r2.2
    if test_point_answer PRED_EQUAL res1 && test_point_answer PRED_EQUAL res2 then
      pure (st, PRED_SAME_TIME)
    else if test_point_answer PRED_AFTER res1 then
      pure (st, if PREDS_EQUIV.contains res1 then PRED_AFTER else res1)
    else if test_point_answer PRED_BEFORE res2 then
      pure (st, if PREDS_EQUIV.contains res2 then PRED_BEFORE else res2)
    else pure (st, PRED_UNKNOWN)

/-- A point-like `enter` / `elapsed` argument: a name, a `TimePoint` or an
`EventPoint` (never an `AbsTime`). -/
inductive EArg where
  | name : String → EArg
  | pt : Nat → EArg
  | ev : EventPoint → EArg
deriving DecidableEq, Repr

/-- A `relation` / `enter` argument (point-like or absolute time). -/
inductive RArg where
  | basic : EArg → RArg
  | abs : AbsTime → RArg
deriving DecidableEq, Repr

/-- The name-resolution prologue shared by `relation` and `elapsed`:
a string is looked up among events first, then among points. -/
def resolveArg (st : TimeGraph) : RArg → Option RVal
  | .basic (.name s) =>
    if is_event st s then (event_point st s).map RVal.ev
    else (time_point st s).map RVal.pt
  | .basic (.pt i) => some (.pt i)
  | .basic (.ev e) => some (.ev e)
  | .abs a => some (.abs a)

def isAbsRVal : Option RVal → Bool
  | some (.abs _) => true
  | _ => false

/-- `TimeGraph.relation`. -/
def relation (fuel : Nat) (st : TimeGraph) (a1 a2 : RArg) (effort : Int) :
    Except String (TimeGraph × String) :=
  let r1 := resolveArg st a1
  let r2 := resolveArg st a2
  if isAbsRVal r1 || isAbsRVal r2 then find_absolute_reln fuel st r1 r2 effort
  else find_relation fuel st r1 r2 effort

/-! ### Duration queries -/

mutual

/-- `TimeGraph.search_for_duration` (the fuel bounds the total number of
steps; the source recursion is bounded by the `already` visited-name list). -/
def search_for_duration : Nat → TimeGraph → Nat → Nat → Option (XInt × XInt) →
    List String → XInt × XInt
  | 0, _, _, _, _, _ => (.fin 0, .pinf)
  | fuel + 1, st, tp1, tp2, dur, already =>
    let desclist := (getP st tp1).descendants ++ (getP st tp1).xdescendants
    search_dur_loop fuel st tp2 dur already desclist (.fin 0, .pinf)

def search_dur_loop : Nat → TimeGraph → Nat → Option (XInt × XInt) → List String →
    List Nat → XInt × XInt → XInt × XInt
  | 0, _, _, _, _, _, usedur => usedur
  | _ + 1, _, _, _, _, [], usedur => usedur
  | fuel + 1, st, tp2, dur, already, item :: rest, usedur =>
    let topt := (getL st item).to_tp
    let linkdur := TimeLink.calc_duration st item
    if !(already.contains (getP st topt).name) then
      let curdur := match dur with
        | some d => combine_durations d linkdur
        | none => linkdur
      let usedur1 :=
        if pointEqPy st topt tp2 then get_best_duration usedur curdur
        else
          get_best_duration usedur
            (search_for_duration fuel st topt tp2 (some curdur)
              (already ++ [(getP st topt).name]))
      search_dur_loop fuel st tp2 dur already rest usedur1
    else search_dur_loop fuel st tp2 dur already rest usedur

end

/-- `TimeGraph.calc_duration`. -/
def calc_duration (fuel : Nat) (st : TimeGraph) (tp1 tp2 : Option Nat) (effort : Int) :
    XInt × XInt :=
  match tp1, tp2 with
  | some i, some j =>
    let durans := duration_between (getP st i) (getP st j)
    let durans :=
      if (!durans.1.truthy || durans.2 == XInt.pinf || !durans.2.truthy) && effort > 0 then
        get_best_duration durans (search_for_duration fuel st i j none [(getP st i).name])
      else durans
    ((if !durans.1.truthy then .fin 0 else durans.1),
     (if !durans.2.truthy then .pinf else durans.2))
  | _, _ => (.fin 0, .pinf)

/-- The name-resolution prologue of `elapsed` (no `AbsTime` arguments are
admissible). -/
def resolveE (st : TimeGraph) : EArg → Option (Sum Nat EventPoint)
  | .name s =>
    if is_event st s then (event_point st s).map Sum.inr
    else (time_point st s).map Sum.inl
  | .pt i => some (.inl i)
  | .ev e => some (.inr e)

/-- `TimeGraph.get_end` restricted to elapsed-admissible values. -/
def getEndE (st : TimeGraph) : Option (Sum Nat EventPoint) → Option Nat
  | none => none
  | some (.inl i) => some i
  | some (.inr e) => time_point st e.«end»

/-- `TimeGraph.get_start` restricted to elapsed-admissible values. -/
def getStartE (st : TimeGraph) : Option (Sum Nat EventPoint) → Option Nat
  | none => none
  | some (.inl i) => some i
  | some (.inr e) => time_point st e.start

/-- `TimeGraph.elapsed`. -/
def elapsed (fuel : Nat) (st : TimeGraph) (a1 a2 : EArg) (effort : Int) : XInt × XInt :=
  let r1 := resolveE st a1
  let r2 := resolveE st a2
  calc_duration fuel st (getEndE st r1) (getStartE st r2) effort

/-! ### Entry algorithms -/

/-- `TimeGraph.check_inconsistent`. -/
def check_inconsistent (fuel : Nat) (st : TimeGraph) (f l : PAVal) (reln : String)
    (effort : Int) : Except String (TimeGraph × Bool) := do
  let r ← find_point fuel st (some f) (some l) effort
  let oldreln := r.2
  if reln == PRED_BEFORE then
    pure (r.1, (PREDS_EQUIV ++ [PRED_AFTER, PRED_AFTER ++ "-0", PRED_BEFORE ++ "-0"]).contains oldreln)
  else if reln == PRED_AFTER then
    pure (r.1, (PREDS_EQUIV ++ [PRED_BEFORE, PRED_BEFORE ++ "-0", PRED_AFTER ++ "-0"]).contains oldreln)
  else pure (r.1, false)

/-- `TimeGraph.add_before_same_chain`. -/
def add_before_same_chain (fuel : Nat) (st : TimeGraph) (f l : Nat) (strictfl : Int) :
    TimeGraph :=
  let st1 := modifyP st f (fun p =>
    { p with chain := (getP st l).chain, pseudo := (getP st l).pseudo_before })
  let st2 :=
    if strict_p strictfl then
      let stA := modifyP st1 f (fun p => { p with max_pseudo := .fin (getP st1 l).pseudo })
      let stB := modifyP stA l (fun p => { p with min_pseudo := .fin (getP stA f).pseudo })
      prop_min fuel stB l (getP stB f).pseudo
    else modifyP st1 f (fun p => { p with max_pseudo := (getP st1 l).max_pseudo })
  update_first st2 f

/-- `TimeGraph.add_after_same_chain`. -/
def add_after_same_chain (fuel : Nat) (st : TimeGraph) (l f : Nat) (strictfl : Int) :
    TimeGraph :=
  let st1 := modifyP st l (fun p =>
    { p with chain := (getP st f).chain, pseudo := (getP st f).pseudo_after })
  if strict_p strictfl then
    let stA := modifyP st1 l (fun p => { p with min_pseudo := .fin (getP st1 f).pseudo })
    let stB := modifyP stA f (fun p => { p with max_pseudo := .fin (getP stA l).pseudo })
    prop_max fuel stB f (getP stB l).pseudo
  else modifyP st1 l (fun p => { p with min_pseudo := (getP st1 f).min_pseudo })

/-- `TimeGraph.add_between_same_chain`. -/
def add_between_same_chain (fuel : Nat) (st : TimeGraph) (m f l : Nat)
    (strictfm strictml : Int) : TimeGraph :=
  let r := pseudo_between fuel st f l
  let st1 := modifyP r.1 m (fun p =>
    { p with chain := (getP r.1 f).chain, pseudo := r.2 })
  let st2 :=
    if strict_p strictfm then
      let stA := modifyP st1 m (fun p => { p with min_pseudo := .fin (getP st1 f).pseudo })
      let stB := modifyP stA f (fun p => { p with max_pseudo := .fin (getP stA m).pseudo })
      let stC := prop_max fuel stB f (getP stB m).pseudo
      prop_min fuel stC l (getP stC f).pseudo
    else modifyP st1 m (fun p => { p with min_pseudo := (getP st1 f).min_pseudo })
  if strict_p strictml then
    let stA := modifyP st2 m (fun p => { p with max_pseudo := .fin (getP st2 l).pseudo })
    let stB := modifyP stA l (fun p => { p with min_pseudo := .fin (getP stA m).pseudo })
    let stC := prop_min fuel stB l (getP stB m).pseudo
    prop_max fuel stC f (getP stC l).pseudo
  else modifyP st2 m (fun p => { p with max_pseudo := (getP st2 l).max_pseudo })

/-- `TimeGraph.add_on_new_chain`. -/
def add_on_new_chain (st : TimeGraph) (pid : Nat) : TimeGraph :=
  let r := newchain st
  let st1 := modifyP r.1 pid (fun p => { p with chain := some r.2, pseudo := PSEUDO_INIT })
  update_first st1 pid

/-- `TimeGraph.add_before`. -/
def add_before (fuel : Nat) (st : TimeGraph) (fname lname : String) (strict : Int) :
    Except String TimeGraph :=
  match time_point st lname with
  | none => .error ("Time point " ++ lname ++ " doesn't exist in timegraph.")
  | some l =>
    let r : TimeGraph × Nat :=
      match time_point st fname with
      | some f => (st, f)
      | none =>
        let pid := st.points.length
        let stA := { st with points := st.points ++ [mkTimePoint fname none PSEUDO_INIT] }
        let stB := update_point stA fname pid
        let stC :=
          if first_in_chain (getP stB l) then add_before_same_chain fuel stB pid l strict
          else add_on_new_chain stB pid
        (stC, pid)
    let st1 := r.1
    let f := r.2
    let st2 := if strict_p strict && on_same_chain st1 f l then add_strictness fuel st1 f l
               else st1
    let st3 := (add_link st2 f l (strict_p strict)).1
    do
      let st4 ← update_absolute_max st3 f (getP st3 l).absolute_max
      update_absolute_min fuel st4 l (getP st4 f).absolute_min

/-- `TimeGraph.add_after`. -/
def add_after (fuel : Nat) (st : TimeGraph) (lname fname : String) (strict : Int) :
    Except String TimeGraph :=
  match time_point st fname with
  | none => .error ("Time point " ++ fname ++ " doesn't exist in timegraph.")
  | some f =>
    let r : TimeGraph × Nat :=
      match time_point st lname with
      | some l => (st, l)
      | none =>
        let pid := st.points.length
        let stA := { st with points := st.points ++ [mkTimePoint lname none PSEUDO_INIT] }
        let stB := update_point stA lname pid
        let stC :=
          if last_in_chain (getP stB f) then add_after_same_chain fuel stB pid f strict
          else add_on_new_chain stB pid
        (stC, pid)
    let st1 := r.1
    let l := r.2
    let st2 := if strict_p strict && on_same_chain st1 f l then add_strictness fuel st1 f l
               else st1
    let st3 := (add_link st2 f l (strict_p strict)).1
    do
      let st4 ← update_absolute_min fuel st3 l (getP st3 f).absolute_min
      update_absolute_max st4 f (getP st4 l).absolute_max

/-- `TimeGraph.get_path`. -/
def get_path : Nat → TimeGraph → Nat → Nat → Except String (List Nat)
  | 0, _, _, _ => .error "out of fuel"
  | fuel + 1, st, tp1, tp2 =>
    let nxt := match (getP st tp1).descendants with
      | [] => none
      | d :: _ => some ((getL st d).to_tp)
    if pointEqPy st tp1 tp2 then pure [tp1]
    else
      match nxt with
      | none => .error ("No in-chain path exists between " ++ (getP st tp1).name ++
                        " and " ++ (getP st tp2).name ++ ".")
      | some n => do
        let rest ← get_path fuel st n tp2
        pure (tp1 :: rest)

/-- `TimeGraph.collapse_nodes`. -/
def collapse_nodes (fuel : Nat) (st : TimeGraph) (tp1 tp2 : Nat) :
    Except String TimeGraph := do
  let st1 ← copy_links fuel st tp1 tp2
  pure (merge_names st1 tp1 tp2)

/-- `TimeGraph.collapse_chain`.  Note the source reads `tp1.absolute_min`
twice (lines 1365-1366), so `absmin2` is `tp1`'s bound, not `tp2`'s; the
comparison below therefore never finds a strictly later minimum — modelled
exactly as written. -/
def collapse_chain (fuel : Nat) (st : TimeGraph) (tp1 tp2 : Nat) :
    Except String TimeGraph := do
  let min1 := (getP st tp1).min_pseudo
  let min2 := (getP st tp2).min_pseudo
  let max1 := (getP st tp1).max_pseudo
  let max2 := (getP st tp2).max_pseudo
  let absmin1 := (getP st tp1).absolute_min
  let absmin2 := (getP st tp1).absolute_min
  let path ← get_path fuel st tp1 tp2
  let st1 ← (path.drop 1).foldlM (fun s tpi => collapse_nodes fuel s tp1 tpi) st
  let st2 :=
    if !(min2 == XInt.ninf) && XInt.lt min1 min2 then
      let stA := modifyP st1 tp1 (fun p => { p with min_pseudo := min2 })
      match min2 with
      | .fin v => prop_min fuel stA (first_desc stA tp1) v
      | _ => stA
    else st1
  let st3 :=
    if !(max2 == XInt.pinf) && XInt.lt max2 max1 then
      let stA := modifyP st2 tp1 (fun p => { p with max_pseudo := max2 })
      match max2 with
      | .fin v => prop_max fuel stA (first_anc stA tp1) v
      | _ => stA
    else st2
  if test_answer PRED_AFTER (absmin2.compare absmin1) then
    pure (modifyP st3 tp1 (fun p => { p with absolute_min := absmin2 }))
  else pure st3

/-- `TimeGraph.collapse_xchain`. -/
def collapse_xchain (fuel : Nat) (st : TimeGraph) (tp1 tp2 : Nat) :
    Except String TimeGraph := do
  let absmin2 := (getP st tp2).absolute_min
  let absmax2 := (getP st tp2).absolute_max
  let st1 := check_first fuel st tp2
  let st2 ← copy_links fuel st1 tp2 tp1
  let st3 ← update_absolute_min fuel st2 tp1 absmin2
  let st4 ← update_absolute_max st3 tp1 absmax2
  pure (merge_names st4 tp1 tp2)

/-- The both-points-exist body of `TimeGraph.add_equal`. -/
def add_equal_go (fuel : Nat) (st : TimeGraph) (tp1 tp2 : Nat) :
    Except String TimeGraph :=
  if on_same_chain st tp1 tp2 && !possibly_equal (getP st tp1) (getP st tp2) then pure st
  else if pointEqPy st tp1 tp2 then pure st
  else if on_same_chain st tp1 tp2 then collapse_chain fuel st tp1 tp2
  else collapse_xchain fuel st tp1 tp2

/-- `TimeGraph.add_equal` (`t1` is a name or an existing point; a new name is
simply aliased to `tp2`). -/
def add_equal (fuel : Nat) (st : TimeGraph) (t1 : Sum String Nat) (tp2 : Nat) :
    Except String TimeGraph :=
  match t1 with
  | .inl name =>
    match time_point st name with
    | none => pure (update_point st name tp2)
    | some tp1 => add_equal_go fuel st tp1 tp2
  | .inr tp1 => add_equal_go fuel st tp1 tp2

/-- `TimeGraph.check_equal`. -/
def check_equal (fuel : Nat) (st : TimeGraph) (name1 name2 : String) :
    Except String TimeGraph :=
  match time_point st name1, time_point st name2 with
  | none, none =>
    let r := add_single st name2
    add_equal fuel r.1 (.inl name1) r.2
  | none, some tp2 => add_equal fuel st (.inl name1) tp2
  | some tp1, none => add_equal fuel st (.inl name2) tp1
  | some tp1, some tp2 =>
    if on_same_chain st tp1 tp2 && (getP st tp1).pseudo > (getP st tp2).pseudo then
      add_equal fuel st (.inr tp2) tp1
    else add_equal fuel st (.inr tp1) tp2

/-- `TimeGraph.check_before`. -/
def check_before (fuel : Nat) (st : TimeGraph) (fname lname : String) (strictfl : Int) :
    Except String TimeGraph := do
  let f := time_point st fname
  let l := time_point st lname
  let r1 ←
    match f, l with
    | some fp, some lp =>
      if strictfl < 0 then do
        let ri ← check_inconsistent fuel st (.pt fp) (.pt lp) PRED_BEFORE DEFAULT_EFFORT
        pure (ri.1, if ri.2 then (0 : Int) else strictfl)
      else pure (st, strictfl)
    | _, _ => pure (st, strictfl)
  let st1 := r1.1
  let strictfl := r1.2
  if strictfl == 0 then check_equal fuel st1 fname lname
  else
    match l with
    | none =>
      let st2 := if f.isNone then (add_single st1 fname).1 else st1
      add_after fuel st2 lname fname strictfl
    | some _ => add_before fuel st1 fname lname strictfl

/-- `TimeGraph.check_after`. -/
def check_after (fuel : Nat) (st : TimeGraph) (lname fname : String) (strictfl : Int) :
    Except String TimeGraph := do
  let l := time_point st lname
  let f := time_point st fname
  let r1 ←
    match l, f with
    | some lp, some fp =>
      if strictfl < 0 then do
        let ri ← check_inconsistent fuel st (.pt lp) (.pt fp) PRED_AFTER DEFAULT_EFFORT
        pure (ri.1, if ri.2 then (0 : Int) else strictfl)
      else pure (st, strictfl)
    | _, _ => pure (st, strictfl)
  let st1 := r1.1
  let strictfl := r1.2
  if strictfl == 0 then check_equal fuel st1 lname fname
  else
    match f with
    | none =>
      let st2 := if l.isNone then (add_single st1 lname).1 else st1
      add_before fuel st2 fname lname strictfl
    | some _ => add_after fuel st1 lname fname strictfl

/-- `TimeGraph.add_between`. -/
def add_between (fuel : Nat) (st : TimeGraph) (mname fname lname : String)
    (strictfm strictml : Int) : Except String TimeGraph :=
  match time_point st fname with
  | none => .error ("Time point " ++ fname ++ " doesn't exist in timegraph.")
  | some f =>
    match time_point st lname with
    | none => .error ("Time point " ++ lname ++ " doesn't exist in timegraph.")
    | some l => do
      let r1 ←
        match time_point st mname with
        | some m => pure (st, m)
        | none =>
          if strictfm == 0 then do
            let stA ← add_equal fuel st (.inl mname) f
            pure (stA, f)
          else if strictml == 0 then do
            let stA ← add_equal fuel st (.inl mname) l
            pure (stA, l)
          else
            let pid := st.points.length
            let stA := { st with points := st.points ++ [mkTimePoint mname none PSEUDO_INIT] }
            let stB := update_point stA mname pid
            let stC :=
              if on_same_chain stB f l then
                (if adjacent stB f l then
                   add_between_same_chain fuel stB pid f l strictfm strictml
                 else add_on_new_chain stB pid)
              else if last_in_chain (getP stB f) then
                add_after_same_chain fuel stB pid f strictfm
              else if first_in_chain (getP stB l) then
                add_before_same_chain fuel stB pid l strictml
              else add_on_new_chain stB pid
            pure (stC, pid)
      let st1 := r1.1
      let m := r1.2
      let st2 ←
        if strictfm == 0 then
          if !(pointEqPy st1 f m) then add_equal fuel st1 (.inr m) f
          else pure (add_link st1 f m (strict_p strictfm)).1
        else pure st1
      let st3 ←
        if strictml == 0 then
          if !(pointEqPy st2 m l) then add_equal fuel st2 (.inr m) l
          else pure (add_link st2 m l (strict_p strictml)).1
        else pure st2
      let st4 ← update_absolute_min fuel st3 m (getP st3 f).absolute_min
      let st5 ← update_absolute_max st4 m (getP st4 l).absolute_max
      let st6 ← update_absolute_max st5 f (getP st5 m).absolute_max
      update_absolute_min fuel st6 l (getP st6 m).absolute_min

/-- `TimeGraph.handle_between`. -/
def handle_between (fuel : Nat) (st : TimeGraph) (mname fname lname : String)
    (strictfm strictml : Int) : Except String TimeGraph := do
  let f := time_point st fname
  let l := time_point st lname
  let r1 ←
    match l, f with
    | some lp, some fp =>
      if combine_strict strictfm strictml < 0 then do
        let ri ← check_inconsistent fuel st (.pt lp) (.pt fp) PRED_AFTER DEFAULT_EFFORT
        pure (ri.1, if ri.2 then ((0 : Int), (0 : Int)) else (strictfm, strictml))
      else pure (st, strictfm, strictml)
    | _, _ => pure (st, strictfm, strictml)
  let st1 := r1.1
  let sfm := r1.2.1
  let sml := r1.2.2
  if sfm == 0 then do
    let st2 ← check_equal fuel st1 mname fname
    check_before fuel st2 mname lname sml
  else if sml == 0 then do
    let st2 ← check_equal fuel st1 mname lname
    check_after fuel st2 mname fname sfm
  else add_between fuel st1 mname fname lname sfm sml

/-- `TimeGraph.check_between`. -/
def check_between (fuel : Nat) (st : TimeGraph) (mname fname lname : String)
    (strictfm strictml : Int) : Except String TimeGraph := do
  let m := time_point st mname
  let f := time_point st fname
  let l := time_point st lname
  let r1 ←
    match m, f with
    | some mp, some fp =>
      if strictfm < 0 then do
        let ri ← check_inconsistent fuel st (.pt mp) (.pt fp) PRED_AFTER DEFAULT_EFFORT
        pure (ri.1, if ri.2 then (0 : Int) else strictfm)
      else pure (st, strictfm)
    | _, _ => pure (st, strictfm)
  let st1 := r1.1
  let sfm := r1.2
  let r2 ←
    match m, l with
    | some mp, some lp =>
      if strictml < 0 then do
        let ri ← check_inconsistent fuel st1 (.pt mp) (.pt lp) PRED_BEFORE DEFAULT_EFFORT
        pure (ri.1, if ri.2 then (0 : Int) else strictml)
      else pure (st1, strictml)
    | _, _ => pure (st1, strictml)
  let st2 := r2.1
  let sml := r2.2
  match m with
  | none => do
    let st3 ← check_before fuel st2 fname lname (combine_strict sfm sml)
    handle_between fuel st3 mname fname lname sfm sml
  | some mp =>
    if first_in_chain (getP st2 mp) || last_in_chain (getP st2 mp) then do
      let st3 ← check_before fuel st2 fname mname sfm
      check_after fuel st3 lname mname sml
    else do
      let st3 ← check_after fuel st2 lname fname (combine_strict sfm sml)
      handle_between fuel st3 mname fname lname sfm sml

/-- `TimeGraph.enter_point`. -/
def enter_point (fuel : Nat) (st : TimeGraph) (n1 stem n2 : String)
    (n3 : Option String) (strict1 strict2 : Int) : Except String TimeGraph :=
  if stem == PRED_BETWEEN || n1 != n2 then
    if stem == "" then pure (add_single st n1).1
    else if PREDS_EQUIV.contains stem then check_equal fuel st n1 n2
    else if stem == PRED_BEFORE then check_before fuel st n1 n2 strict1
    else if stem == PRED_AFTER then check_after fuel st n1 n2 strict1
    else if stem == PRED_BETWEEN then
      match n3 with
      | none => .error "A third point must be given as tpname3 for predicate before."
      | some n3v => check_between fuel st n1 n2 n3v strict1 strict2
    else .error ("Unsupported predicate stem " ++ stem)
  else pure st

/-- `TimeGraph.register_event`. -/
def register_event (st : TimeGraph) (name : String) : TimeGraph × EventPoint :=
  match event_point st name with
  | some e => (st, e)
  | none =>
    let e : EventPoint := { name := name, start := name ++ "start", «end» := name ++ "end" }
    ({ st with events := (name, e) :: st.events }, e)

/-- `TimeGraph.add_event`. -/
def add_event (fuel : Nat) (st : TimeGraph) (e : EventPoint) : Except String TimeGraph :=
  enter_point fuel st e.start PRED_BEFORE e.«end» none (-1) (-1)

/-- `get_start_name` (module-level in timegraph.py) on a present argument;
the state is consulted only to read a point's (immutable) name. -/
def get_start_nameT (st : TimeGraph) : EArg → String
  | .name s => s
  | .pt i => (getP st i).name
  | .ev e => e.start

/-- `get_end_name` (module-level in timegraph.py) on a present argument. -/
def get_end_nameT (st : TimeGraph) : EArg → String
  | .name s => s
  | .pt i => (getP st i).name
  | .ev e => e.«end»

def isEvE : EArg → Bool
  | .ev _ => true
  | _ => false

/-- `TimeGraph.enter_reln` (fuel covers the self-recursion used to relate
`a2` and `a3` when a third argument is supplied). -/
def enter_reln : Nat → TimeGraph → EArg → String → EArg → Option EArg → Int → Int →
    Except String TimeGraph
  | 0, _, _, _, _, _, _, _ => .error "out of fuel"
  | fuel + 1, st, a1, stem, a2, a3, strict1, strict2 => do
    let st ←
      match a3 with
      | some a3v => enter_reln fuel st a2 PRED_DURING a3v none (-1) (-1)
      | none => pure st
    let a1start := get_start_nameT st a1
    let a2start := get_start_nameT st a2
    let a1end := get_end_nameT st a1
    let a2end := get_end_nameT st a2
    let st ←
      if PREDS_EQUIV.contains stem then do
        let sA ← enter_point fuel st a2start PRED_EQUAL a2start none (-1) (-1)
        enter_point fuel sA a1end PRED_EQUAL a2end none (-1) (-1)
      else if stem == PRED_BEFORE then
        match a3 with
        | none => do
          let sA ← enter_point fuel st a1end PRED_BEFORE a2start none strict1 (-1)
          enter_point fuel sA a1start PRED_BEFORE a1end none (-1) (-1)
        | some a3v => do
          let a3start := get_start_nameT st a3v
          let sA ← enter_point fuel st a1end PRED_BETWEEN a3start (some a2start) (-1) strict1
          enter_point fuel sA a1start PRED_BETWEEN a3start (some a1end) (-1) (-1)
      else if stem == PRED_AFTER then
        match a3 with
        | none => do
          let sA ← enter_point fuel st a1start PRED_AFTER a2end none strict1 (-1)
          enter_point fuel sA a1end PRED_AFTER a1start none (-1) (-1)
        | some a3v => do
          let a3end := get_end_nameT st a3v
          let sA ← enter_point fuel st a1start PRED_BETWEEN a2end (some a3end) strict1 (-1)
          enter_point fuel sA a1end PRED_BETWEEN a1end (some a3end) (-1) (-1)
      else if stem == PRED_DURING then do
        let sA ←
          match a3 with
          | some a3v => do
            let a3start := get_start_nameT st a3v
            let a3end := get_end_nameT st a3v
            let sB ← enter_point fuel st a2start PRED_AFTER a3start none (-1) (-1)
            enter_point fuel sB a2end PRED_BEFORE a3end none (-1) (-1)
          | none => pure st
        let sB ← enter_point fuel sA a1start PRED_BETWEEN a2start (some a2end) strict1 (-1)
        enter_point fuel sB a1end PRED_BETWEEN a1start (some a2end) (-1) strict2
      else if stem == PRED_CONTAINS then do
        let sA ←
          match a3 with
          | none => do
            let sB ← enter_point fuel st a1start PRED_BEFORE a2start none strict1 (-1)
            enter_point fuel sB a1end PRED_AFTER a2end none strict2 (-1)
          | some a3v => do
            let a3start := get_start_nameT st a3v
            let a3end := get_end_nameT st a3v
            let sB ← enter_point fuel st a1start PRED_BETWEEN a3start (some a2start) (-1) strict1
            enter_point fuel sB a1end PRED_BETWEEN a2end (some a3end) strict2 (-1)
        enter_point fuel sA a1start PRED_BEFORE a1end none (-1) (-1)
      else if stem == PRED_OVERLAPS then
        match a3 with
        | none => do
          let sA ← enter_point fuel st a1end PRED_BETWEEN a2start (some a2end) (-1) strict2
          enter_point fuel sA a1start PRED_BEFORE a2start none strict1 (-1)
        | some a3v => do
          let a3start := get_start_nameT st a3v
          let a3end := get_end_nameT st a3v
          let sA ← enter_point fuel st a1start PRED_BETWEEN a3start (some a2start) (-1) strict1
          let sB ← enter_point fuel sA a1end PRED_BETWEEN a2start (some a2end) (-1) strict2
          enter_point fuel sB a2end PRED_BEFORE a3end none (-1) (-1)
      else if stem == PRED_OVERLAPPED_BY then
        match a3 with
        | none => do
          let sA ← enter_point fuel st a1start PRED_BETWEEN a2start (some a2end) strict1 (-1)
          enter_point fuel sA a1end PRED_AFTER a2end none strict2 (-1)
        | some a3v => do
          let a3start := get_start_nameT st a3v
          let a3end := get_end_nameT st a3v
          let sA ← enter_point fuel st a1start PRED_BETWEEN a2start (some a2end) strict1 (-1)
          let sB ← enter_point fuel sA a1end PRED_BETWEEN a2end (some a3end) strict2 (-1)
          enter_point fuel sB a3start PRED_BEFORE a2start none (-1) (-1)
      else pure st
    match a2 with
    | .ev e => add_event fuel st e
    | _ => pure st

/-- `get_start_name` on a general (possibly absolute-time) argument; the
source returns None for anything unrecognised, which the absolute-time entry
helpers then pass into `add_absolute_min`/`max`, whose assertion fires — but
no absolute-time argument reaches these helpers in the modelled claims, and
the branch below keeps the unreachable case explicit. -/
def getStartNameR (st : TimeGraph) : RArg → Option String
  | .basic e => some (get_start_nameT st e)
  | .abs _ => none

def getEndNameR (st : TimeGraph) : RArg → Option String
  | .basic e => some (get_end_nameT st e)
  | .abs _ => none

/-- `TimeGraph.enter_absolute` (`a3` is ignored by the source, as its
docstring notes). -/
def enter_absolute (fuel : Nat) (st : TimeGraph) (a1 : RArg) (stem : String)
    (a2 : AbsTime) : Except String TimeGraph :=
  match a1 with
  | .abs _ => pure st
  | .basic e1 =>
    let start := get_start_nameT st e1
    let endn := get_end_nameT st e1
    do
      let st1 ←
        if stem == PRED_BEFORE then add_absolute_max st (.inl endn) a2
        else if stem == PRED_AFTER then add_absolute_min fuel st (.inl start) a2
        else if PREDS_EQUIV.contains stem then do
          let sA ← add_absolute_min fuel st (.inl start) a2
          add_absolute_max sA (.inl endn) a2
        else if stem == PRED_DURING then pure st
        else if stem == PRED_CONTAINS then do
          let sA ← add_absolute_max st (.inl start) a2
          add_absolute_min fuel sA (.inl endn) a2
        else if stem == PRED_OVERLAPS then add_absolute_min fuel st (.inl start) a2
        else if stem == PRED_OVERLAPPED_BY then add_absolute_max st (.inl start) a2
        else pure st
      match e1 with
      | .ev e => add_event fuel st1 e
      | _ => pure st1

/-- The `add_event` calls closing `enter_abs_between` / `enter_between`. -/
def add_events_of (fuel : Nat) (st : TimeGraph) (args : List RArg) :
    Except String TimeGraph :=
  match args with
  | [] => pure st
  | .basic (.ev e) :: rest => do
    let st1 ← add_event fuel st e
    add_events_of fuel st1 rest
  | _ :: rest => add_events_of fuel st rest

/-- `TimeGraph.enter_abs_between`. -/
def enter_abs_between (fuel : Nat) (st : TimeGraph) (a1 a2 : RArg) (a3 : Option RArg)
    (strict1 : Int) : Except String TimeGraph := do
  let st1 ←
    match a1 with
    | .basic e1 => do
      let sA ←
        match a2 with
        | .abs x => add_absolute_min fuel st (.inl (get_start_nameT st e1)) x
        | .basic e2 => enter_reln fuel st e1 PRED_AFTER e2 none strict1 (-1)
      match a3 with
      | some (.abs y) => add_absolute_max sA (.inl (get_end_nameT sA e1)) y
      | _ => pure sA
    | .abs x => do
      let sA ←
        match a2 with
        | .abs _ => pure st
        | .basic e2 => add_absolute_max st (.inl (get_end_nameT st e2)) x
      match a3 with
      | some (.basic e3) => add_absolute_min fuel sA (.inl (get_start_nameT sA e3)) x
      | some (.abs _) => pure sA
      | none => .error "AssertionError: add_absolute_min expects a name or point"
  let allargs := [a1, a2] ++ (match a3 with
    | some v => [v]
    | none => [])
  add_events_of fuel st1 allargs

/-- `TimeGraph.enter_between`. -/
def enter_between (fuel : Nat) (st : TimeGraph) (a1 a2 : EArg) (a3 : Option EArg)
    (strict2 : Int) : Except String TimeGraph := do
  let a1end := get_end_nameT st a1
  let a2end := get_end_nameT st a2
  let a3start := a3.map (get_start_nameT st)
  let st1 ← enter_point fuel st a1end PRED_BETWEEN a2end a3start (-1) strict2
  let allargs := [RArg.basic a1, RArg.basic a2] ++ (match a3 with
    | some v => [RArg.basic v]
    | none => [])
  add_events_of fuel st1 allargs

/-- `TimeGraph.enter_duration_min`. -/
def enter_duration_min (fuel : Nat) (st : TimeGraph) (a1 a2 : EArg) (dur : XInt) :
    Except String TimeGraph :=
  add_duration_min fuel st (get_end_nameT st a1) (get_start_nameT st a2) dur

/-- `TimeGraph.enter_duration_max`. -/
def enter_duration_max (st : TimeGraph) (a1 a2 : EArg) (dur : XInt) :
    Except String TimeGraph :=
  add_duration_max st (get_end_nameT st a1) (get_start_nameT st a2) dur

/-- `TimeGraph.enter_duration_reln`. -/
def enter_duration_reln (fuel : Nat) (st : TimeGraph) (a1 : EArg) (reln : String)
    (a2 : EArg) (dur : XInt) : Except String TimeGraph :=
  if reln == PRED_AT_LEAST_BEFORE then do
    let st1 ← enter_reln fuel st a1 PRED_BEFORE a2 none 1 (-1)
    enter_duration_min fuel st1 a1 a2 dur
  else if reln == PRED_AT_MOST_BEFORE then do
    let st1 ← enter_reln fuel st a1 PRED_BEFORE a2 none 1 (-1)
    enter_duration_max st1 a1 a2 dur
  else if reln == PRED_EXACTLY_BEFORE then do
    let st1 ← enter_reln fuel st a1 PRED_BEFORE a2 none 1 (-1)
    let st2 ← enter_duration_min fuel st1 a1 a2 dur
    enter_duration_max st2 a1 a2 dur
  else if reln == PRED_AT_LEAST_AFTER then do
    let st1 ← enter_reln fuel st a1 PRED_AFTER a2 none 1 (-1)
    enter_duration_min fuel st1 a2 a1 dur
  else if reln == PRED_AT_MOST_AFTER then do
    let st1 ← enter_reln fuel st a1 PRED_AFTER a2 none 1 (-1)
    enter_duration_max st1 a2 a1 dur
  else if reln == PRED_EXACTLY_AFTER then do
    let st1 ← enter_reln fuel st a1 PRED_AFTER a2 none 1 (-1)
    let st2 ← enter_duration_min fuel st1 a2 a1 dur
    enter_duration_max st2 a2 a1 dur
  else pure st

/-- The third `enter` argument: a relation object or a numeric duration. -/
inductive A3 where
  | arg : RArg → A3
  | num : Int → A3
deriving DecidableEq, Repr

/-- The event-promotion prologue of `enter`: a string argument naming a
registered event is replaced by that `EventPoint`. -/
def promoteEvent (st : TimeGraph) : RArg → RArg
  | .basic (.name s) =>
    if is_event st s then
      match event_point st s with
      | some e => .basic (.ev e)
      | none => .basic (.name s)
    else .basic (.name s)
  | x => x

/-- The sequence/containment dispatch of `enter`: absolute times route to
`enter_absolute` (inverting the stem when the subject is the absolute time),
everything else to `enter_reln`. -/
def enter_seq_core (fuel : Nat) (st : TimeGraph) (a1 : RArg) (stem : String) (a2 : RArg)
    (a3ev : Option EventPoint) (s1 s2 : Int) : Except String TimeGraph :=
  match a2 with
  | .abs x => enter_absolute fuel st a1 stem x
  | .basic e2 =>
    match a1 with
    | .abs y => enter_absolute fuel st (.basic e2) (inverse_relnS stem) y
    | .basic e1 => enter_reln fuel st e1 stem e2 (a3ev.map EArg.ev) s1 s2

/-- The equal/same-time dispatch of `enter`. -/
def enter_equal_core (fuel : Nat) (st : TimeGraph) (a1 : RArg) (stem : String)
    (a2 : RArg) : Except String TimeGraph :=
  match a1, a2 with
  | .abs x, _ => enter_absolute fuel st a2 stem x
  | .basic e1, .abs y => enter_absolute fuel st (.basic e1) stem y
  | .basic e1, .basic e2 => enter_reln fuel st e1 stem e2 none (-1) (-1)

/-- The between dispatch of `enter`. -/
def enter_between_core (fuel : Nat) (st : TimeGraph) (a1 : RArg) (a2 : RArg)
    (a3 : Option RArg) (s1 s2 : Int) : Except String TimeGraph :=
  match a1, a2, a3 with
  | .basic e1, .basic e2, some (.basic e3) => enter_between fuel st e1 e2 (some e3) s2
  | .basic e1, .basic e2, none => enter_between fuel st e1 e2 none s2
  | _, _, _ => enter_abs_between fuel st a1 a2 a3 s1

/-- The sequence/containment branch of `enter` (`a3` must be absent or an
event; anything else leaves `enter_res` False). -/
def enter_seq_branch (fuel : Nat) (st : TimeGraph) (a1 : RArg) (stem : String) (a2 : RArg)
    (a3 : Option A3) (s1 s2 : Int) : Except String (TimeGraph × Bool) :=
  match a3 with
  | none => do
    let st2 ← enter_seq_core fuel st a1 stem a2 none s1 s2
    pure (st2, true)
  | some (.arg (.basic (.ev e3))) => do
    let st1 ← add_event fuel st e3
    let st2 ← enter_seq_core fuel st1 a1 stem a2 (some e3) s1 s2
    pure (st2, true)
  | _ => pure (st, false)

/-- The between branch of `enter`. -/
def enter_between_branch (fuel : Nat) (st : TimeGraph) (a1 a2 : RArg) (a3 : Option A3)
    (s1 s2 : Int) : Except String (TimeGraph × Bool) :=
  match a3 with
  | some (.num _) => .error "AssertionError: between with a numeric third argument"
  | some (.arg r3) => do
    let st2 ← enter_between_core fuel st a1 a2 (some r3) s1 s2
    pure (st2, true)
  | none => do
    let st2 ← enter_between_core fuel st a1 a2 none s1 s2
    pure (st2, true)

/-- The constrained-duration (`at` / `exactly`) branch of `enter`, modelled
as written.  Its guard demands the numeric third argument that `enter`'s
entry assertion excludes, so the arm that calls `enter_duration_reln` is
unreachable through `enter` — dead code in the source, like the
`has-duration` branch. -/
def enter_at_branch (fuel : Nat) (st : TimeGraph) (a1 : RArg) (reln : String) (a2 : RArg)
    (a3 : Option A3) : Except String (TimeGraph × Bool) :=
  match a1, a2, a3 with
  | .basic e1, .basic e2, some (.num d) => do
    let st2 ← enter_duration_reln fuel st e1 reln e2 (.fin d)
    pure (st2, true)
  | _, _, _ => pure (st, false)

/-- The stem dispatch of `enter` on the already event-promoted arguments. -/
def enter_dispatch (fuel : Nat) (st : TimeGraph) (a1 : RArg) (reln stem : String)
    (a2 : RArg) (a3 : Option A3) (s1 s2 : Int) : Except String (TimeGraph × Bool) :=
  if PREDS_SEQ.contains stem || PREDS_CONTAINMENT.contains stem then
    enter_seq_branch fuel st a1 stem a2 a3 s1 s2
  else if stem == PRED_EQUAL || stem == PRED_SAME_TIME then do
    let st2 ← enter_equal_core fuel st a1 stem a2
    pure (st2, true)
  else if stem == PRED_BETWEEN then enter_between_branch fuel st a1 a2 a3 s1 s2
  else if stem == PRED_AT || stem == PRED_EXACTLY then
    enter_at_branch fuel st a1 reln a2 a3
  else if stem == PRED_HAS_DURATION then pure (st, false)
  else .error ("Temporal relation " ++ reln ++ " not supported.")

/-- Event promotion of the third `enter` argument. -/
def promoteA3 (st : TimeGraph) : Option A3 → Option A3
  | some (.arg r) => some (.arg (promoteEvent st r))
  | x => x

/-- The third-argument clause of `enter`'s entry assertion:
`type(a3) in [str, TimePoint, EventPoint, AbsTime] or a3 is None`.  Every
admissible value except a number; the clauses on `a1`, `reln` and `a2` are
enforced by the argument types of the embedding. -/
def a3_type_ok : Option A3 → Bool
  | some (.num _) => false
  | _ => true

/-- `TimeGraph.enter`.  Returns the state and `enter_res`.  The entry
assertion rejects a numeric `a3` before any dispatch, which makes the
`at`/`exactly` duration branch (whose guard needs a numeric `a3`)
unreachable; likewise the `has-duration` branch requires a numeric `a2`,
which the assertion on `a2`'s type excludes — both dead code in the source;
unsupported stems raise. -/
def enter (fuel : Nat) (st : TimeGraph) (a1 : RArg) (reln : String) (a2 : RArg)
    (a3 : Option A3) : Except String (TimeGraph × Bool) :=
  if a3_type_ok a3 then
    enter_dispatch fuel st (promoteEvent st a1) reln (split_time_pred reln).1
      (promoteEvent st a2) (promoteA3 st a3)
      (split_time_pred reln).2.1 (split_time_pred reln).2.2
  else .error "AssertionError: enter expects str, TimePoint, EventPoint or AbsTime arguments"


end TG

/-! ## Concrete instances

Closed-form instances of the data structures above, used to evaluate the
general results on explicit inputs. -/

namespace TG

/-- A stored cross-chain link with ordering quadruple (1, 10, 2, 20). -/
def lkA : LinkList.TLink := ⟨0, 1, 10, 2, 20, false⟩

/-- A strict link, distinct from `lkA` but with the same ordering quadruple. -/
def lkB : LinkList.TLink := ⟨1, 1, 10, 2, 20, true⟩

/-- A third distinct link with the same ordering quadruple as `lkA`. -/
def lkC : LinkList.TLink := ⟨2, 1, 10, 2, 20, false⟩

/-- A link with a fresh ordering quadruple (5, 50, 6, 60). -/
def lkD : LinkList.TLink := ⟨3, 5, 50, 6, 60, true⟩

/-- A chain point at pseudo-time 1 with untightened bounds. -/
def spP : Spine.SPoint := ⟨1, XInt.ninf, XInt.pinf⟩

/-- A chain point at pseudo-time 1001 whose minimum is still loose. -/
def spQ : Spine.SPoint := ⟨1001, XInt.fin 0, XInt.pinf⟩

/-- A chain ancestor of `spP` at pseudo-time −999. -/
def spA : Spine.SPoint := ⟨-999, XInt.ninf, XInt.pinf⟩

/-- A chain descendant of `spQ` at pseudo-time 2001. -/
def spD : Spine.SPoint := ⟨2001, XInt.fin 500, XInt.pinf⟩

/-- An existing point sitting at `PSEUDO_INIT` on chain 0. -/
def c5y : TimePoint := mkTimePoint "y" (some 0) PSEUDO_INIT

/-- A freshly allocated point, not yet placed on a chain. -/
def c5x : TimePoint := mkTimePoint "x" none PSEUDO_INIT

/-- A one-chain graph holding `c5y` (id 0) and the fresh `c5x` (id 1). -/
def c5st : TimeGraph :=
  { chain_count := 1, timegraph := [("y", 0), ("x", 1)],
    metagraph := [(0, { chain_number := 0, first := some 0 })],
    events := [], rel_table := [], points := [c5y, c5x], links := [],
    connections0 := [] }

/-- The three-entry scenario `x1 < x2`, `y1 < y2`, `x1 < y2`: two chains plus
one cross-chain link.  On a failed entry (none occurs) the initial graph is
returned. -/
def c2st : TimeGraph :=
  match enter 99 TimeGraph.init (.basic (.name "x1")) "before" (.basic (.name "x2")) none with
  | .ok r1 =>
    match enter 99 r1.1 (.basic (.name "y1")) "before" (.basic (.name "y2")) none with
    | .ok r2 =>
      match enter 99 r2.1 (.basic (.name "x1")) "before" (.basic (.name "y2")) none with
      | .ok r3 => r3.1
      | .error _ => TimeGraph.init
    | .error _ => TimeGraph.init
  | .error _ => TimeGraph.init

-- Equality of `Except` results is decidable (used to evaluate the concrete
-- scenarios below).
deriving instance DecidableEq for Except

/-- Extract the state of a successful entry; the scenarios below all succeed,
so the fallback branch is never taken. -/
def okSt (x : Except String (TimeGraph × Bool)) : TimeGraph :=
  match x with | .ok r => r.1 | .error _ => TimeGraph.init

/-- One registered event `ev` plus one plain point `pt`. -/
def c1st : TimeGraph := (add_single (register_event TimeGraph.init "ev").1 "pt").1

/-- `a` entered equal to `b`, then `a` entered strictly before `b`. -/
def c3st : TimeGraph :=
  okSt (enter 99
    (okSt (enter 99 TimeGraph.init (.basic (.name "a")) "equal" (.basic (.name "b")) none))
    (.basic (.name "a")) "before-1" (.basic (.name "b")) none)

/-- `a` entered strictly before `b` on a fresh graph. -/
def c4pre : TimeGraph :=
  okSt (enter 99 TimeGraph.init (.basic (.name "a")) "before-1" (.basic (.name "b")) none)

/-- `c4pre` followed by `enter(a, equal, b)`. -/
def c4st : TimeGraph :=
  okSt (enter 99 c4pre (.basic (.name "a")) "equal" (.basic (.name "b")) none)

/-- `c4pre` followed by `enter(a, before-0, b)`. -/
def c10st : TimeGraph :=
  okSt (enter 99 c4pre (.basic (.name "a")) "before-0" (.basic (.name "b")) none)

/-- Two registered events `e1`, `e2` and nothing else. -/
def c9pre : TimeGraph := (register_event (register_event TimeGraph.init "e1").1 "e2").1

/-- The state the dead `at`/`exactly` branch would produce were the entry
assertion not to fire first: `enter_at_branch` applied directly to the
event-promoted arguments of `c9pre`, exactly as `enter_dispatch` would
apply it. -/
def c9direct : TimeGraph :=
  okSt (enter_at_branch 99 c9pre (promoteEvent c9pre (.basic (.name "e1")))
    "at-least-before" (promoteEvent c9pre (.basic (.name "e2"))) (some (.num 5)))

end TG

namespace TG
namespace LinkList

def keyEqP (a b : TLink) : Prop :=
  a.from_chain = b.from_chain ∧ a.from_pseudo = b.from_pseudo ∧
    a.to_chain = b.to_chain ∧ a.to_pseudo = b.to_pseudo

theorem keyEq_iff (a b : TLink) : a.keyEq b = true ↔ keyEqP a b := by
  simp [TLink.keyEq, keyEqP]
  tauto

theorem keyEq_refl (a : TLink) : a.keyEq a = true := by
  simp [TLink.keyEq]

theorem keyEqP_symm {a b : TLink} (h : keyEqP a b) : keyEqP b a :=
  ⟨h.1.symm, h.2.1.symm, h.2.2.1.symm, h.2.2.2.symm⟩

theorem keyEqP_trans {a b c : TLink} (h1 : keyEqP a b) (h2 : keyEqP b c) : keyEqP a c :=
  ⟨h1.1.trans h2.1, h1.2.1.trans h2.2.1, h1.2.2.1.trans h2.2.2.1, h1.2.2.2.trans h2.2.2.2⟩

theorem test_insert_iff (lk x : TLink) (rest : List TLink) :
    test_insert (lk :: rest) x = true ↔ ¬ keyLtB lk x = true := by
  simp [test_insert, keyLtB]
  omega

theorem keyLtB_trans {a b c : TLink} (h1 : keyLtB a b = true) (h2 : keyLtB b c = true) :
    keyLtB a c = true := by
  simp [keyLtB] at *
  omega

theorem keyLtB_irrefl (a : TLink) : ¬ keyLtB a a = true := by
  simp [keyLtB]

theorem keyLtB_of_not_not {a b : TLink} (h1 : ¬ keyLtB a b = true)
    (h2 : ¬ keyLtB b a = true) : keyEqP a b := by
  simp [keyLtB, keyEqP] at *
  omega

theorem keyLtB_congr_right {lk e x : TLink} (h : keyEqP e x) :
    keyLtB lk e = keyLtB lk x := by
  obtain ⟨h1, h2, h3, h4⟩ := h
  simp [keyLtB, h1, h2, h3, h4]

/-- Sortedness by the lexicographic quadruple key (strictly increasing, which
is what lists maintained by `add` alone satisfy: equal keys are merged). -/
def SortedK (l : List TLink) : Prop := List.Chain' (fun x y => keyLtB x y = true) l

theorem head_ins_rec (lk x : TLink) (l : List TLink) (hx : keyLtB lk x = true)
    (hl : ∀ h ∈ l.head?, keyLtB lk h = true) :
    ∀ h ∈ (ins_rec l x).head?, keyLtB lk h = true := by
  induction l with
  | nil => simpa [ins_rec] using hx
  | cons r rest _ =>
    simp only [ins_rec]
    by_cases ht : test_insert (r :: rest) x = true
    · simp only [ht, if_true, ins_here]
      by_cases hk : r.keyEq x = true
      · simp only [hk, if_true]
        by_cases hc : x.strict = true
        · simpa [hc] using hl r (by simp)
        · simpa [hc] using hl r (by simp)
      · simpa [hk] using hx
    · simpa [ht] using hl r (by simp)

theorem sorted_ins_rec (x : TLink) (l : List TLink) (hs : SortedK l) :
    SortedK (ins_rec l x) := by
  induction l with
  | nil => simp [ins_rec, SortedK]
  | cons r rest ih =>
    rw [SortedK, List.chain'_cons'] at hs
    obtain ⟨hhead, htail⟩ := hs
    simp only [ins_rec]
    by_cases ht : test_insert (r :: rest) x = true
    · simp only [ht, if_true, ins_here]
      by_cases hk : r.keyEq x = true
      · simp only [hk, if_true]
        by_cases hc : x.strict = true
        · simp only [hc, if_true]
          exact List.chain'_cons'.2 ⟨fun h hh => hhead h hh, htail⟩
        · simp only [hc, if_false]
          exact List.chain'_cons'.2 ⟨hhead, htail⟩
      · simp only [hk, if_false]
        have hxr : keyLtB x r = true := by
          by_contra hxr
          exact hk ((keyEq_iff r x).2 (keyLtB_of_not_not ((test_insert_iff r x rest).1 ht) hxr))
        refine List.chain'_cons'.2 ⟨fun h hh => ?_, List.chain'_cons'.2 ⟨hhead, htail⟩⟩
        simp at hh
        subst hh
        exact hxr
    · simp only [ht, if_false]
      have hrx : keyLtB r x = true := by
        by_contra h
        exact ht ((test_insert_iff r x rest).2 h)
      exact List.chain'_cons'.2 ⟨head_ins_rec r x rest hrx hhead, ih htail⟩

/-- The strict-OR update applied on a key collision. -/
def updStrict (x e : TLink) : TLink :=
  if e.keyEq x then { e with strict := e.strict || x.strict } else e

theorem sortedK_pairwise {l : List TLink} (hs : SortedK l) :
    List.Pairwise (fun x y => keyLtB x y = true) l := by
  haveI : IsTrans TLink (fun x y => keyLtB x y = true) := ⟨fun _ _ _ => keyLtB_trans⟩
  exact List.chain'_iff_pairwise.1 hs

theorem add_present (x : TLink) (l : List TLink) (hs : SortedK l)
    (hp : ∃ e ∈ l, e.keyEq x = true) :
    add l x = l.map (updStrict x) := by
  induction l with
  | nil => simp at hp
  | cons r rest ih =>
    have hpw := sortedK_pairwise hs
    rw [List.pairwise_cons] at hpw
    rw [SortedK, List.chain'_cons'] at hs
    obtain ⟨hhead, htail⟩ := hs
    simp only [add, ins_rec] at *
    by_cases ht : test_insert (r :: rest) x = true
    · simp only [ht, if_true, ins_here]
      by_cases hk : r.keyEq x = true
      · have hmapid : List.map (updStrict x) rest = rest := by
          have hid : ∀ e ∈ rest, updStrict x e = e := by
            intro e he
            have hre : keyLtB r e = true := hpw.1 e he
            unfold updStrict
            rw [if_neg]
            intro hek
            have her : keyEqP e r :=
              keyEqP_trans ((keyEq_iff e x).1 hek) (keyEqP_symm ((keyEq_iff r x).1 hk))
            rw [keyLtB_congr_right her] at hre
            exact keyLtB_irrefl r hre
          rw [List.map_congr_left (g := id) (fun e he => hid e he), List.map_id]
        simp only [hk, if_true, List.map_cons, hmapid]
        unfold updStrict
        rw [if_pos hk]
        by_cases hc : x.strict = true
        · cases r
          simp [hc]
        · cases r
          simp [hc]
      · exfalso
        obtain ⟨e, hel, hek⟩ := hp
        rcases List.mem_cons.1 hel with rfl | hmem
        · exact hk hek
        · have h1 : keyLtB r e = true := hpw.1 e hmem
          have h2 : keyLtB r e = keyLtB r x := keyLtB_congr_right ((keyEq_iff e x).1 hek)
          exact (test_insert_iff r x rest).1 ht (h2 ▸ h1)
    · rw [if_neg ht]
      have hrx : keyLtB r x = true := by
        by_contra h
        exact ht ((test_insert_iff r x rest).2 h)
      have hkr : ¬ r.keyEq x = true := by
        intro h
        have hxr : keyEqP x r := keyEqP_symm ((keyEq_iff r x).1 h)
        rw [keyLtB_congr_right hxr] at hrx
        exact keyLtB_irrefl r hrx
      obtain ⟨e, hel, hek⟩ := hp
      rcases List.mem_cons.1 hel with rfl | hmem
      · exact absurd hek hkr
      · rw [List.map_cons, ih htail ⟨e, hmem, hek⟩]
        congr 1
        unfold updStrict
        rw [if_neg hkr]


theorem test_insert_self (x : TLink) (l : List TLink) : test_insert (x :: l) x = true := by
  simp [test_insert]

theorem test_insert_strict_update (r x : TLink) (c : Bool) (rest : List TLink) :
    test_insert ({ r with strict := c } :: rest) x = test_insert (r :: rest) x := rfl

theorem keyEq_strict_update (r x : TLink) (c : Bool) :
    ({ r with strict := c } : TLink).keyEq x = r.keyEq x := rfl

theorem strict_update_self (x : TLink) (hc : x.strict = true) :
    ({ x with strict := true } : TLink) = x := by
  cases x
  simp at hc
  simp [hc]

theorem add_idem (x : TLink) (l : List TLink) : add (add l x) x = add l x := by
  induction l with
  | nil =>
    simp only [add, ins_rec, test_insert_self, if_true, ins_here, keyEq_refl]
    by_cases hc : x.strict = true
    · simp only [hc, if_true, strict_update_self x hc]
    · simp [hc]
  | cons r rest ih =>
    simp only [add] at *
    by_cases ht : test_insert (r :: rest) x = true
    · simp only [ins_rec, ht, if_true, ins_here]
      by_cases hk : r.keyEq x = true
      · simp only [hk, if_true]
        by_cases hc : x.strict = true
        · simp only [hc, if_true, ins_rec, test_insert_strict_update, ht,
            keyEq_strict_update, ins_here, hk]
        · simp only [hc, if_false, ins_rec, ht, if_true, ins_here, hk]
      · rw [if_neg hk]
        simp only [ins_rec, test_insert_self, if_true, ins_here, keyEq_refl]
        by_cases hc : x.strict = true
        · simp only [hc, if_true, strict_update_self x hc]
        · simp [hc]
    · have h2 : ins_rec (r :: rest) x = r :: ins_rec rest x := by
        rw [ins_rec, if_neg ht]
      rw [h2, ins_rec,
        if_neg (show ¬ test_insert (r :: ins_rec rest x) x = true from ht), ih]

theorem removeFirstKey_distinct (x : TLink) : ∀ (l : List TLink),
    List.Pairwise (fun a b => a.keyEq b = false) l → x ∈ l →
    removeFirstKey l x = l.erase x := by
  intro l
  induction l with
  | nil => intro _ h; simp at h
  | cons r rest ih =>
    intro hpw hmem
    rw [List.pairwise_cons] at hpw
    by_cases hk : r.keyEq x = true
    · have hrx : r = x := by
        rcases List.mem_cons.1 hmem with rfl | hmem'
        · rfl
        · exact absurd hk (by simp [hpw.1 x hmem'])
      subst hrx
      simp [removeFirstKey, keyEq_refl]
    · have hrne : r ≠ x := by
        intro h
        exact hk (h ▸ keyEq_refl r)
      have hmem' : x ∈ rest := by
        rcases List.mem_cons.1 hmem with rfl | hmem'
        · exact absurd (keyEq_refl x) hk
        · exact hmem'
      rw [removeFirstKey, if_neg hk, List.erase_cons_tail, ih hpw.2 hmem']
      simp [hrne]

theorem remove_distinct (x : TLink) (l : List TLink)
    (hpw : List.Pairwise (fun a b => a.keyEq b = false) l) (hmem : x ∈ l) :
    remove l x = l.erase x := by
  rw [remove, if_pos, removeFirstKey_distinct x l hpw hmem]
  exact List.any_eq_true.2 ⟨x, hmem, keyEq_refl x⟩

end LinkList
end TG

namespace TG
namespace Spine

theorem xle_trans {a b c : XInt} (h1 : XInt.le a b = true) (h2 : XInt.le b c = true) :
    XInt.le a c = true := by
  cases a <;> cases b <;> cases c <;> simp [XInt.le] at * <;> omega

theorem xle_of_not_le {a b : XInt} (h : ¬ XInt.le a b = true) : XInt.le b a = true := by
  cases a <;> cases b <;> simp [XInt.le] at * <;> omega

theorem xle_antisymm {a b : XInt} (h1 : XInt.le a b = true) (h2 : XInt.le b a = true) :
    a = b := by
  cases a <;> cases b <;> simp [XInt.le] at * <;> omega

theorem xmax_eq_right {a b : XInt} (h : XInt.le a b = true) : XInt.max a b = b := by
  rw [XInt.max, if_pos h]

theorem xmax_eq_left {a b : XInt} (h : XInt.le b a = true) : XInt.max a b = a := by
  by_cases h2 : XInt.le a b = true
  · rw [XInt.max, if_pos h2, xle_antisymm h2 h]
  · rw [XInt.max, if_neg h2]

theorem xmin_eq_right {a b : XInt} (h : XInt.le b a = true) : XInt.min a b = b := by
  by_cases h2 : XInt.le a b = true
  · rw [XInt.min, if_pos h2, xle_antisymm h2 h]
  · rw [XInt.min, if_neg h2]

theorem xmin_eq_left {a b : XInt} (h : XInt.le a b = true) : XInt.min a b = a := by
  rw [XInt.min, if_pos h]

/-- The spine update performed by `prop_min` on a min-sorted spine is exactly
the pointwise tightening to `max(old minimum, new minimum)`. -/
theorem prop_min_map (n : Int) (l : List SPoint)
    (hs : List.Chain' (fun x y => XInt.le x.min_pseudo y.min_pseudo = true) l) :
    prop_min n l
      = l.map (fun r => { r with min_pseudo := XInt.max r.min_pseudo (XInt.fin n) }) := by
  induction l with
  | nil => rfl
  | cons p rest ih =>
    have hpw : ∀ r ∈ rest, XInt.le p.min_pseudo r.min_pseudo = true := by
      haveI : IsTrans SPoint (fun x y => XInt.le x.min_pseudo y.min_pseudo = true) :=
        ⟨fun _ _ _ => xle_trans⟩
      exact (List.pairwise_cons.1 (List.chain'_iff_pairwise.1 hs)).1
    rw [List.chain'_cons'] at hs
    simp only [prop_min, List.map_cons]
    by_cases hle : XInt.le p.min_pseudo (XInt.fin n) = true
    · rw [if_pos hle, ih hs.2, xmax_eq_right hle]
    · rw [if_neg hle, xmax_eq_left (xle_of_not_le hle)]
      have hrest : rest.map
          (fun r => { r with min_pseudo := XInt.max r.min_pseudo (XInt.fin n) }) = rest := by
        rw [List.map_congr_left (g := id) (fun r hr => ?_), List.map_id]
        have h1 : XInt.le (XInt.fin n) r.min_pseudo = true :=
          xle_trans (xle_of_not_le hle) (hpw r hr)
        show ({ r with min_pseudo := XInt.max r.min_pseudo (XInt.fin n) } : SPoint) = r
        rw [xmax_eq_left h1]
      rw [hrest]

/-- The spine update performed by `prop_max` on a max-sorted backward spine is
exactly the pointwise tightening to `min(old maximum, new maximum)`. -/
theorem prop_max_map (n : Int) (l : List SPoint)
    (hs : List.Chain' (fun x y => XInt.le y.max_pseudo x.max_pseudo = true) l) :
    prop_max n l
      = l.map (fun r => { r with max_pseudo := XInt.min r.max_pseudo (XInt.fin n) }) := by
  induction l with
  | nil => rfl
  | cons p rest ih =>
    have hpw : ∀ r ∈ rest, XInt.le r.max_pseudo p.max_pseudo = true := by
      haveI : IsTrans SPoint (fun x y => XInt.le y.max_pseudo x.max_pseudo = true) :=
        ⟨fun _ _ _ h1 h2 => xle_trans h2 h1⟩
      exact (List.pairwise_cons.1 (List.chain'_iff_pairwise.1 hs)).1
    rw [List.chain'_cons'] at hs
    simp only [prop_max, List.map_cons]
    by_cases hle : XInt.le (XInt.fin n) p.max_pseudo = true
    · rw [if_pos hle, ih hs.2, xmin_eq_right hle]
    · rw [if_neg hle, xmin_eq_left (xle_of_not_le hle)]
      have hrest : rest.map
          (fun r => { r with max_pseudo := XInt.min r.max_pseudo (XInt.fin n) }) = rest := by
        rw [List.map_congr_left (g := id) (fun r hr => ?_), List.map_id]
        have h1 : XInt.le r.max_pseudo (XInt.fin n) = true :=
          xle_trans (hpw r hr) (xle_of_not_le hle)
        show ({ r with max_pseudo := XInt.min r.max_pseudo (XInt.fin n) } : SPoint) = r
        rw [xmin_eq_left h1]
      rw [hrest]

end Spine
end TG

namespace TG
namespace Spine

theorem xle_refl (a : XInt) : XInt.le a a = true := by
  cases a <;> simp [XInt.le]

theorem xle_of_lt {a b : XInt} (h : XInt.lt a b = true) : XInt.le a b = true := by
  cases a <;> cases b <;> simp [XInt.lt, XInt.le] at * <;> omega

theorem xle_of_not_lt {a b : XInt} (h : ¬ XInt.lt a b = true) : XInt.le b a = true := by
  cases a <;> cases b <;> simp [XInt.lt, XInt.le] at * <;> omega

end Spine

/-- C7: on a `TimeLinkList` sorted lexicographically by the quadruple key
(from-chain, from-pseudo, to-chain, to-pseudo), `add` keeps the list sorted
by that key; if an entry with a key equal to the item's is already present,
no duplicate is inserted — the result is the old list with the colliding
entry's strict flag replaced by the disjunction of the two flags, so the
length is unchanged — and repeating the same `add` is a no-op. -/
theorem C7_timelinklist_add (l : List LinkList.TLink) (x : LinkList.TLink)
    (hs : LinkList.SortedK l) :
    LinkList.SortedK (LinkList.add l x)
      ∧ ((∃ e ∈ l, e.keyEq x = true) →
          LinkList.add l x = l.map (LinkList.updStrict x)
            ∧ (LinkList.add l x).length = l.length)
      ∧ LinkList.add (LinkList.add l x) x = LinkList.add l x := by
  refine ⟨LinkList.sorted_ins_rec x l hs, fun hp => ?_, LinkList.add_idem x l⟩
  have h := LinkList.add_present x l hs hp
  exact ⟨h, by rw [h, List.length_map]⟩

/-- C7 witness: the insertion result on the sorted singleton `[lkA]` and the
key-colliding strict item `lkB`. -/
theorem C7_timelinklist_add_witness :
    LinkList.SortedK (LinkList.add [lkA] lkB)
      ∧ (LinkList.add [lkA] lkB = [lkA].map (LinkList.updStrict lkB)
          ∧ (LinkList.add [lkA] lkB).length = [lkA].length)
      ∧ LinkList.add (LinkList.add [lkA] lkB) lkB = LinkList.add [lkA] lkB :=
  ⟨(C7_timelinklist_add [lkA] lkB (by simp [LinkList.SortedK])).1,
   (C7_timelinklist_add [lkA] lkB (by simp [LinkList.SortedK])).2.1
     ⟨lkA, by simp, by decide⟩,
   (C7_timelinklist_add [lkA] lkB (by simp [LinkList.SortedK])).2.2⟩

/-- C8 counterexample: removal is NOT by object identity.  `lkA` and `lkC`
are distinct links sharing the ordering quadruple; `remove [lkA, lkC] lkC`
deletes the first `TimeLink.__eq__`-equal element, which is `lkA`, so the
object asked for survives and a mere key twin is the one removed. -/
theorem C8_counterexample :
    lkC ∈ [lkA, lkC] ∧ lkA ≠ lkC ∧ lkA.keyEq lkC = true
      ∧ LinkList.remove [lkA, lkC] lkC = [lkC]
      ∧ LinkList.remove [lkA, lkC] lkC ≠ [lkA] := by
  decide

/-- C8 amended: `TimeLinkList.remove` removes by `TimeLink.__eq__`, i.e. by
the ordering quadruple, deleting the first key-equal element.  On a list
whose keys are pairwise distinct — as every list maintained by `add` alone
is — removing a member coincides with erasing that very object. -/
theorem C8_remove_by_key (l : List LinkList.TLink) (x : LinkList.TLink)
    (hpw : List.Pairwise (fun a b => a.keyEq b = false) l) (hx : x ∈ l) :
    LinkList.remove l x = l.erase x :=
  LinkList.remove_distinct x l hpw hx

/-- C8 witness: the amended removal statement on the key-distinct list
`[lkA, lkD]`. -/
theorem C8_remove_by_key_witness :
    LinkList.remove [lkA, lkD] lkD = [lkA, lkD].erase lkD :=
  C8_remove_by_key [lkA, lkD] lkD (by decide) (by decide)

/-- C6: `add_strictness(p, q)` for same-chain points with `p.pseudo <
q.pseudo`, on spines whose stored minima are non-decreasing forward and
whose stored maxima are non-increasing backward, sets `q.min_pseudo` to
`max(old q.min_pseudo, p.pseudo)` and propagates that minimum through the
chain descendants of `q` exactly where it tightens, and sets `p.max_pseudo`
to `min(old p.max_pseudo, q.pseudo)` and propagates that maximum through the
chain ancestors of `p` exactly where it tightens. -/
theorem C6_add_strictness (p q : Spine.SPoint) (anc desc : List Spine.SPoint)
    (hpq : p.pseudo < q.pseudo)
    (hdesc : List.Chain'
      (fun x y => XInt.le x.min_pseudo y.min_pseudo = true) (q :: desc))
    (hanc : List.Chain'
      (fun x y => XInt.le y.max_pseudo x.max_pseudo = true) (p :: anc)) :
    (Spine.add_strictness p q anc desc).2.1.min_pseudo
        = XInt.max q.min_pseudo (XInt.fin p.pseudo)
      ∧ (Spine.add_strictness p q anc desc).1.max_pseudo
        = XInt.min p.max_pseudo (XInt.fin q.pseudo)
      ∧ (Spine.add_strictness p q anc desc).2.2.2
        = desc.map
            (fun r => { r with min_pseudo := XInt.max r.min_pseudo (XInt.fin p.pseudo) })
      ∧ (Spine.add_strictness p q anc desc).2.2.1
        = anc.map
            (fun r => { r with max_pseudo := XInt.min r.max_pseudo (XInt.fin q.pseudo) }) := by
  have hdpw : ∀ r ∈ desc, XInt.le q.min_pseudo r.min_pseudo = true := by
    haveI : IsTrans Spine.SPoint (fun x y => XInt.le x.min_pseudo y.min_pseudo = true) :=
      ⟨fun _ _ _ => Spine.xle_trans⟩
    exact (List.pairwise_cons.1 (List.chain'_iff_pairwise.1 hdesc)).1
  have hapw : ∀ r ∈ anc, XInt.le r.max_pseudo p.max_pseudo = true := by
    haveI : IsTrans Spine.SPoint (fun x y => XInt.le y.max_pseudo x.max_pseudo = true) :=
      ⟨fun _ _ _ h1 h2 => Spine.xle_trans h2 h1⟩
    exact (List.pairwise_cons.1 (List.chain'_iff_pairwise.1 hanc)).1
  by_cases hmin : (q.min_pseudo == XInt.ninf
      || XInt.lt q.min_pseudo (XInt.fin p.pseudo)) = true
  <;> by_cases hmax : (p.max_pseudo == XInt.pinf
      || XInt.lt (XInt.fin q.pseudo) p.max_pseudo) = true
  · -- both phases fire
    have h1 : XInt.max q.min_pseudo (XInt.fin p.pseudo) = XInt.fin p.pseudo := by
      have hmin' := hmin
      rw [Bool.or_eq_true] at hmin'
      rcases hmin' with h | h
      · have hq : q.min_pseudo = XInt.ninf := by simpa using h
        rw [hq]; rfl
      · exact Spine.xmax_eq_right (Spine.xle_of_lt h)
    have h2 : XInt.min p.max_pseudo (XInt.fin q.pseudo) = XInt.fin q.pseudo := by
      have hmax' := hmax
      rw [Bool.or_eq_true] at hmax'
      rcases hmax' with h | h
      · have hp : p.max_pseudo = XInt.pinf := by simpa using h
        rw [hp]; rfl
      · exact Spine.xmin_eq_right (Spine.xle_of_lt h)
    have hpmin : Spine.prop_min p.pseudo
        ({ q with min_pseudo := XInt.fin p.pseudo } :: desc)
        = { q with min_pseudo := XInt.fin p.pseudo } ::
            desc.map (fun r =>
              { r with min_pseudo := XInt.max r.min_pseudo (XInt.fin p.pseudo) }) := by
      simp only [Spine.prop_min, Spine.xle_refl, if_true]
      rw [Spine.prop_min_map p.pseudo desc hdesc.tail]
    have hle2 : XInt.le (XInt.fin q.pseudo) p.max_pseudo = true := by
      have hmax' := hmax
      rw [Bool.or_eq_true] at hmax'
      rcases hmax' with h | h
      · have hp : p.max_pseudo = XInt.pinf := by simpa using h
        rw [hp]; rfl
      · exact Spine.xle_of_lt h
    have hpmax : Spine.prop_max q.pseudo (p :: anc)
        = { p with max_pseudo := XInt.fin q.pseudo } ::
            anc.map (fun r =>
              { r with max_pseudo := XInt.min r.max_pseudo (XInt.fin q.pseudo) }) := by
      simp only [Spine.prop_max]
      rw [if_pos hle2, Spine.prop_max_map q.pseudo anc hanc.tail]
    simp [Spine.add_strictness, hmin, hmax, hpmin, hpmax, h1, h2]
  · -- min phase fires, max phase is already tight
    have h1 : XInt.max q.min_pseudo (XInt.fin p.pseudo) = XInt.fin p.pseudo := by
      have hmin' := hmin
      rw [Bool.or_eq_true] at hmin'
      rcases hmin' with h | h
      · have hq : q.min_pseudo = XInt.ninf := by simpa using h
        rw [hq]; rfl
      · exact Spine.xmax_eq_right (Spine.xle_of_lt h)
    have hpmin : Spine.prop_min p.pseudo
        ({ q with min_pseudo := XInt.fin p.pseudo } :: desc)
        = { q with min_pseudo := XInt.fin p.pseudo } ::
            desc.map (fun r =>
              { r with min_pseudo := XInt.max r.min_pseudo (XInt.fin p.pseudo) }) := by
      simp only [Spine.prop_min, Spine.xle_refl, if_true]
      rw [Spine.prop_min_map p.pseudo desc hdesc.tail]
    have hmax' := hmax
    simp only [Bool.or_eq_true, not_or] at hmax'
    have hge2 : XInt.le p.max_pseudo (XInt.fin q.pseudo) = true :=
      Spine.xle_of_not_lt hmax'.2
    have h2 : XInt.min p.max_pseudo (XInt.fin q.pseudo) = p.max_pseudo :=
      Spine.xmin_eq_left hge2
    have hamap : anc.map (fun r =>
        { r with max_pseudo := XInt.min r.max_pseudo (XInt.fin q.pseudo) }) = anc := by
      rw [List.map_congr_left (g := id) (fun r hr => ?_), List.map_id]
      show ({ r with max_pseudo := XInt.min r.max_pseudo (XInt.fin q.pseudo) }
        : Spine.SPoint) = r
      rw [Spine.xmin_eq_left (Spine.xle_trans (hapw r hr) hge2)]
    simp [Spine.add_strictness, hmin, hmax, hpmin, h1, h2, hamap]
  · -- min phase already tight, max phase fires
    have hmin' := hmin
    simp only [Bool.or_eq_true, not_or] at hmin'
    have hge1 : XInt.le (XInt.fin p.pseudo) q.min_pseudo = true :=
      Spine.xle_of_not_lt hmin'.2
    have h1 : XInt.max q.min_pseudo (XInt.fin p.pseudo) = q.min_pseudo :=
      Spine.xmax_eq_left hge1
    have hdmap : desc.map (fun r =>
        { r with min_pseudo := XInt.max r.min_pseudo (XInt.fin p.pseudo) }) = desc := by
      rw [List.map_congr_left (g := id) (fun r hr => ?_), List.map_id]
      show ({ r with min_pseudo := XInt.max r.min_pseudo (XInt.fin p.pseudo) }
        : Spine.SPoint) = r
      rw [Spine.xmax_eq_left (Spine.xle_trans hge1 (hdpw r hr))]
    have h2 : XInt.min p.max_pseudo (XInt.fin q.pseudo) = XInt.fin q.pseudo := by
      have hmax' := hmax
      rw [Bool.or_eq_true] at hmax'
      rcases hmax' with h | h
      · have hp : p.max_pseudo = XInt.pinf := by simpa using h
        rw [hp]; rfl
      · exact Spine.xmin_eq_right (Spine.xle_of_lt h)
    have hle2 : XInt.le (XInt.fin q.pseudo) p.max_pseudo = true := by
      have hmax' := hmax
      rw [Bool.or_eq_true] at hmax'
      rcases hmax' with h | h
      · have hp : p.max_pseudo = XInt.pinf := by simpa using h
        rw [hp]; rfl
      · exact Spine.xle_of_lt h
    have hpmax : Spine.prop_max q.pseudo (p :: anc)
        = { p with max_pseudo := XInt.fin q.pseudo } ::
            anc.map (fun r =>
              { r with max_pseudo := XInt.min r.max_pseudo (XInt.fin q.pseudo) }) := by
      simp only [Spine.prop_max]
      rw [if_pos hle2, Spine.prop_max_map q.pseudo anc hanc.tail]
    simp [Spine.add_strictness, hmin, hmax, hpmax, h1, h2, hdmap]
  · -- both bounds already tight
    have hmin' := hmin
    simp only [Bool.or_eq_true, not_or] at hmin'
    have hge1 : XInt.le (XInt.fin p.pseudo) q.min_pseudo = true :=
      Spine.xle_of_not_lt hmin'.2
    have h1 : XInt.max q.min_pseudo (XInt.fin p.pseudo) = q.min_pseudo :=
      Spine.xmax_eq_left hge1
    have hdmap : desc.map (fun r =>
        { r with min_pseudo := XInt.max r.min_pseudo (XInt.fin p.pseudo) }) = desc := by
      rw [List.map_congr_left (g := id) (fun r hr => ?_), List.map_id]
      show ({ r with min_pseudo := XInt.max r.min_pseudo (XInt.fin p.pseudo) }
        : Spine.SPoint) = r
      rw [Spine.xmax_eq_left (Spine.xle_trans hge1 (hdpw r hr))]
    have hmax' := hmax
    simp only [Bool.or_eq_true, not_or] at hmax'
    have hge2 : XInt.le p.max_pseudo (XInt.fin q.pseudo) = true :=
      Spine.xle_of_not_lt hmax'.2
    have h2 : XInt.min p.max_pseudo (XInt.fin q.pseudo) = p.max_pseudo :=
      Spine.xmin_eq_left hge2
    have hamap : anc.map (fun r =>
        { r with max_pseudo := XInt.min r.max_pseudo (XInt.fin q.pseudo) }) = anc := by
      rw [List.map_congr_left (g := id) (fun r hr => ?_), List.map_id]
      show ({ r with max_pseudo := XInt.min r.max_pseudo (XInt.fin q.pseudo) }
        : Spine.SPoint) = r
      rw [Spine.xmin_eq_left (Spine.xle_trans (hapw r hr) hge2)]
    simp [Spine.add_strictness, hmin, hmax, h1, h2, hdmap, hamap]
/-- C6 witness: the strictness update on a concrete four-point chain
`spA < spP < spQ < spD` with loose bounds. -/
theorem C6_add_strictness_witness :
    (Spine.add_strictness spP spQ [spA] [spD]).2.1.min_pseudo
        = XInt.max spQ.min_pseudo (XInt.fin spP.pseudo)
      ∧ (Spine.add_strictness spP spQ [spA] [spD]).1.max_pseudo
        = XInt.min spP.max_pseudo (XInt.fin spQ.pseudo)
      ∧ (Spine.add_strictness spP spQ [spA] [spD]).2.2.2
        = [spD].map
            (fun r => { r with min_pseudo := XInt.max r.min_pseudo (XInt.fin spP.pseudo) })
      ∧ (Spine.add_strictness spP spQ [spA] [spD]).2.2.1
        = [spA].map
            (fun r => { r with max_pseudo := XInt.min r.max_pseudo (XInt.fin spQ.pseudo) }) :=
  C6_add_strictness spP spQ [spA] [spD] (by decide)
    (by simp [spQ, spD, XInt.le]) (by simp [spP, spA, XInt.le])

end TG


namespace TG

theorem list_getD_set {α : Type} (l : List α) (j : Nat) (a : α) (i : Nat) (d : α) :
    (l.set j a).getD i d = if j = i ∧ j < l.length then a else l.getD i d := by
  induction l generalizing i j with
  | nil => simp
  | cons x xs ih =>
    cases j with
    | zero =>
      cases i with
      | zero => simp
      | succ i' => simp
    | succ j' =>
      cases i with
      | zero => simp
      | succ i' =>
        show (xs.set j' a).getD i' d = _
        rw [ih]
        by_cases h1 : j' = i'
        · subst h1
          by_cases h2 : j' < xs.length
          · rw [if_pos ⟨rfl, h2⟩, if_pos ⟨rfl, by simpa using Nat.succ_lt_succ h2⟩]
          · rw [if_neg (fun hc => h2 hc.2),
              if_neg (fun hc => h2 (by simpa using Nat.lt_of_succ_lt_succ hc.2))]
            exact (List.getD_cons_succ).symm
        · rw [if_neg (fun hc => h1 hc.1),
            if_neg (fun hc => h1 (Nat.succ.inj hc.1))]
          exact (List.getD_cons_succ).symm

theorem getP_setP (st : TimeGraph) (j : Nat) (p : TimePoint) (i : Nat) :
    getP (setP st j p) i = if j = i ∧ j < st.points.length then p else getP st i := by
  unfold getP setP
  exact list_getD_set st.points j p i _

theorem getP_setP_self (st : TimeGraph) (j : Nat) (p : TimePoint)
    (h : j < st.points.length) : getP (setP st j p) j = p := by
  rw [getP_setP, if_pos ⟨rfl, h⟩]

theorem getP_setP_pseudo (st : TimeGraph) (j : Nat) (p : TimePoint) (i : Nat)
    (h : p.pseudo = (getP st j).pseudo) :
    (getP (setP st j p) i).pseudo = (getP st i).pseudo := by
  rw [getP_setP]
  split
  · rename_i hc
    rw [h, hc.1]
  · rfl

theorem getP_congr {st1 st2 : TimeGraph} (h : st1.points = st2.points) (i : Nat) :
    getP st1 i = getP st2 i := by
  unfold getP
  rw [h]

theorem points_update_first (st : TimeGraph) (i : Nat) :
    (update_first st i).points = st.points := by
  unfold update_first
  cases (getP st i).chain with
  | none => rfl
  | some cn =>
    dsimp only
    cases time_chain st cn with
    | none => rfl
    | some mn =>
      dsimp only
      cases mn.first with
      | none => rfl
      | some f =>
        dsimp only
        split <;> rfl

theorem prop_min_pseudo : ∀ (fuel : Nat) (st : TimeGraph) (pid : Nat) (n : Int) (i : Nat),
    (getP (prop_min fuel st pid n) i).pseudo = (getP st i).pseudo := by
  intro fuel
  induction fuel with
  | zero => intro st pid n i; rfl
  | succ fu ih =>
    intro st pid n i
    simp only [prop_min]
    split
    · split
      · exact getP_setP_pseudo st pid _ i rfl
      · rw [ih]
        exact getP_setP_pseudo st pid _ i rfl
    · rfl

theorem prop_max_pseudo : ∀ (fuel : Nat) (st : TimeGraph) (pid : Nat) (n : Int) (i : Nat),
    (getP (prop_max fuel st pid n) i).pseudo = (getP st i).pseudo := by
  intro fuel
  induction fuel with
  | zero => intro st pid n i; rfl
  | succ fu ih =>
    intro st pid n i
    simp only [prop_max]
    split
    · split
      · exact getP_setP_pseudo st pid _ i rfl
      · rw [ih]
        exact getP_setP_pseudo st pid _ i rfl
    · rfl

theorem getP_modifyP_pseudo (st : TimeGraph) (j : Nat) (f : TimePoint → TimePoint)
    (h : ∀ p, (f p).pseudo = p.pseudo) (i : Nat) :
    (getP (modifyP st j f) i).pseudo = (getP st i).pseudo := by
  rw [modifyP]
  exact getP_setP_pseudo st j _ i (h _)

theorem getP_modify_maxp (st : TimeGraph) (j : Nat) (v : XInt) (i : Nat) :
    (getP (modifyP st j (fun p => { p with max_pseudo := v })) i).pseudo
      = (getP st i).pseudo :=
  getP_modifyP_pseudo st j (fun p => { p with max_pseudo := v }) (fun _ => rfl) i

theorem getP_modify_minp (st : TimeGraph) (j : Nat) (v : XInt) (i : Nat) :
    (getP (modifyP st j (fun p => { p with min_pseudo := v })) i).pseudo
      = (getP st i).pseudo :=
  getP_modifyP_pseudo st j (fun p => { p with min_pseudo := v }) (fun _ => rfl) i

theorem add_before_same_chain_pseudo (fuel : Nat) (st : TimeGraph) (x y : Nat) (s : Int)
    (hx : x < st.points.length) :
    (getP (add_before_same_chain fuel st x y s) x).pseudo
      = (getP st y).pseudo_before := by
  simp only [add_before_same_chain]
  rw [getP_congr (points_update_first _ x) x]
  have hst1 : (getP (modifyP st x (fun p =>
      { p with chain := (getP st y).chain, pseudo := (getP st y).pseudo_before })) x).pseudo
      = (getP st y).pseudo_before := by
    rw [modifyP, getP_setP_self st x _ hx]
  split
  · rw [prop_min_pseudo, getP_modify_minp, getP_modify_maxp]
    exact hst1
  · rw [getP_modify_maxp]
    exact hst1

theorem add_after_same_chain_pseudo (fuel : Nat) (st : TimeGraph) (x y : Nat) (s : Int)
    (hx : x < st.points.length) :
    (getP (add_after_same_chain fuel st x y s) x).pseudo
      = (getP st y).pseudo_after := by
  simp only [add_after_same_chain]
  have hst1 : (getP (modifyP st x (fun p =>
      { p with chain := (getP st y).chain, pseudo := (getP st y).pseudo_after })) x).pseudo
      = (getP st y).pseudo_after := by
    rw [modifyP, getP_setP_self st x _ hx]
  split
  · rw [prop_max_pseudo, getP_modify_maxp, getP_modify_minp]
    exact hst1
  · rw [getP_modify_minp]
    exact hst1

end TG

namespace TG

/-- C5 counterexample: placing a new point before (resp. after) a point whose
pseudo-time is `PSEUDO_INIT = 1` yields pseudo-time −1000 (resp. 2000), not
the claimed 1 − STEP = −999 (resp. 1 + STEP = 1001): `pseudo_before` and
`pseudo_after` first replace a pseudo-time equal to `PSEUDO_INIT` by 0. -/
theorem C5_counterexample :
    (getP c5st 0).pseudo = PSEUDO_INIT
      ∧ (getP (add_before_same_chain 9 c5st 1 0 1) 1).pseudo = -1000
      ∧ (getP (add_before_same_chain 9 c5st 1 0 1) 1).pseudo
          ≠ (getP c5st 0).pseudo - PSEUDO_INCREMENT
      ∧ (getP (add_after_same_chain 9 c5st 1 0 1) 1).pseudo = 2000
      ∧ (getP (add_after_same_chain 9 c5st 1 0 1) 1).pseudo
          ≠ (getP c5st 0).pseudo + PSEUDO_INCREMENT := by
  decide

/-- C5 amended: a new point `x` placed on the chain of an existing point `y`
gets `x.pseudo = y.pseudo − STEP` (before) and `x.pseudo = y.pseudo + STEP`
(after) whenever `y.pseudo ≠ PSEUDO_INIT`; when `y.pseudo = PSEUDO_INIT` the
source first replaces it by 0, so the placed pseudo-times are `−STEP` and
`2·STEP` instead of `PSEUDO_INIT ± STEP`. -/
theorem C5_pseudo_placement (fuel : Nat) (st : TimeGraph) (x y : Nat) (sb sa : Int)
    (hx : x < st.points.length) :
    ((getP st y).pseudo ≠ PSEUDO_INIT →
        (getP (add_before_same_chain fuel st x y sb) x).pseudo
            = (getP st y).pseudo - PSEUDO_INCREMENT
          ∧ (getP (add_after_same_chain fuel st x y sa) x).pseudo
            = (getP st y).pseudo + PSEUDO_INCREMENT)
      ∧ ((getP st y).pseudo = PSEUDO_INIT →
        (getP (add_before_same_chain fuel st x y sb) x).pseudo = -PSEUDO_INCREMENT
          ∧ (getP (add_after_same_chain fuel st x y sa) x).pseudo
            = 2 * PSEUDO_INCREMENT) := by
  have hb := add_before_same_chain_pseudo fuel st x y sb hx
  have ha := add_after_same_chain_pseudo fuel st x y sa hx
  constructor
  · intro hne
    rw [hb, ha, TimePoint.pseudo_before, TimePoint.pseudo_after]
    have hf : ((getP st y).pseudo == PSEUDO_INIT) = false := by simpa using hne
    rw [hf]
    simp
  · intro heq
    rw [hb, ha, TimePoint.pseudo_before, TimePoint.pseudo_after, heq]
    constructor <;> decide

/-- C5 witness: the placement rule evaluated on `c5st`, whose existing point
sits at `PSEUDO_INIT`. -/
theorem C5_pseudo_placement_witness :
    (getP c5st 0).pseudo = PSEUDO_INIT
      ∧ (getP (add_before_same_chain 9 c5st 1 0 1) 1).pseudo = -PSEUDO_INCREMENT
      ∧ (getP (add_after_same_chain 9 c5st 1 0 1) 1).pseudo = 2 * PSEUDO_INCREMENT :=
  ⟨by decide, (C5_pseudo_placement 9 c5st 1 0 1 1 (by decide)).2 (by decide)⟩

end TG

namespace TG

/-- C2: the metagraph-faithfulness invariant fails, because `MetaNode.__init__`
takes its `connections` list from a mutable default argument, so every chain's
MetaNode shares one `TimeLinkList` (state field `connections0`).  After the
three entries of `c2st`, the one cross-chain link (id 2, from `x1` on chain 0
to `y2` on chain 1) sits in that shared list — hence also in chain 1's
`connections` — while no point of chain 1 carries it in `xdescendants`. -/
theorem C2_shared_connections :
    c2st.connections0 = [2]
      ∧ (getL c2st 2).from_tp = 0 ∧ (getL c2st 2).to_tp = 3
      ∧ (getP c2st 0).chain = some 0 ∧ (getP c2st 3).chain = some 1
      ∧ (getP c2st 0).xdescendants = [2]
      ∧ (∀ i < c2st.points.length, (getP c2st i).chain = some 1 →
          ¬ (2 ∈ (getP c2st i).xdescendants)) := by
  decide

end TG

namespace TG

/-- C1 counterexample: querying `relation` on two names absent from the graph
does not return `unknown`: both resolve to Python `None`, `None == None`
holds, and `find_relation` answers `same-time`. -/
theorem C1_counterexample :
    relation 9 TimeGraph.init (.basic (.name "a")) (.basic (.name "b")) 0
        = .ok (TimeGraph.init, PRED_SAME_TIME)
      ∧ PRED_SAME_TIME ≠ PRED_UNKNOWN := by
  decide

/-- C3 counterexample: the strict-before round trip fails on a graph where the
two names were previously entered as equal.  `enter(a, before-1, b)` is
accepted (it returns `True`), but both queries still answer `same-time`, not
`before-1` / `after-1`. -/
theorem C3_counterexample :
    (enter 99 (okSt (enter 99 TimeGraph.init (.basic (.name "a")) "equal"
        (.basic (.name "b")) none))
        (.basic (.name "a")) "before-1" (.basic (.name "b")) none).map (·.2)
        = .ok true
      ∧ (time_point c3st "a").isSome ∧ (time_point c3st "b").isSome
      ∧ (relation 99 c3st (.basic (.name "a")) (.basic (.name "b")) 1).map (·.2)
        = .ok PRED_SAME_TIME
      ∧ (relation 99 c3st (.basic (.name "b")) (.basic (.name "a")) 1).map (·.2)
        = .ok PRED_SAME_TIME
      ∧ PRED_SAME_TIME ≠ PRED_BEFORE ++ "-1" ∧ PRED_SAME_TIME ≠ PRED_AFTER ++ "-1" := by
  decide

/-- C4 counterexample: `enter(a, equal, b)` does not make the names equal when
they are already strictly ordered: `add_equal` backs off when
`possibly_equal` fails, the entry still reports success, the two names keep
distinct points, and the query still answers `before-1`. -/
theorem C4_counterexample :
    (enter 99 c4pre (.basic (.name "a")) "equal" (.basic (.name "b")) none).map (·.2)
        = .ok true
      ∧ (relation 99 c4st (.basic (.name "a")) (.basic (.name "b")) 0).map (·.2)
        = .ok (PRED_BEFORE ++ "-1")
      ∧ PRED_BEFORE ++ "-1" ≠ PRED_SAME_TIME
      ∧ time_point c4st "a" = some 0 ∧ time_point c4st "b" = some 1 := by
  decide

/-- C10 counterexample: `enter(a, before-0, b)` (strictness 0) does not
collapse the endpoints when they are already strictly ordered: the collapse
goes through the same backing-off `add_equal`, so the two names keep their
distinct points. -/
theorem C10_counterexample :
    (enter 99 c4pre (.basic (.name "a")) "before-0" (.basic (.name "b")) none).map (·.2)
        = .ok true
      ∧ time_point c10st "a" = some 0 ∧ time_point c10st "b" = some 1 := by
  decide

/-- C9: the duration entry never happens through `enter`: the entry
assertion admits only str / TimePoint / EventPoint / AbsTime (or None) third
arguments, so `enter(e1, at-least-before, e2, 5)` raises AssertionError
before any dispatch — for every state and arguments — leaving the two-event
graph without links and with `elapsed` at `(0, inf)` at every effort.  The
dead branch body itself (`enter_at_branch` applied directly, state
`c9direct`) would store a strict link with minimum duration 5 from `e1`'s
end (point 0) to `e2`'s start (point 1), which `elapsed` reports only at
effort 1, not at the default effort 0. -/
theorem C9_dead_duration_entry :
    (∀ (fuel : Nat) (st : TimeGraph) (a1 : RArg) (reln : String) (a2 : RArg) (d : Int),
        enter fuel st a1 reln a2 (some (.num d))
          = .error "AssertionError: enter expects str, TimePoint, EventPoint or AbsTime arguments")
      ∧ enter 99 c9pre (.basic (.name "e1")) "at-least-before" (.basic (.name "e2"))
          (some (.num 5))
        = .error "AssertionError: enter expects str, TimePoint, EventPoint or AbsTime arguments"
      ∧ c9pre.links = []
      ∧ elapsed 99 c9pre (.name "e1") (.name "e2") DEFAULT_EFFORT = (.fin 0, .pinf)
      ∧ elapsed 99 c9pre (.name "e1") (.name "e2") 1 = (.fin 0, .pinf)
      ∧ ¬ XInt.le (.fin 5) (.fin 0) = true
      ∧ (enter_at_branch 99 c9pre (promoteEvent c9pre (.basic (.name "e1")))
          "at-least-before" (promoteEvent c9pre (.basic (.name "e2")))
          (some (.num 5))).map (·.2) = .ok true
      ∧ (getL c9direct 0).from_tp = 0 ∧ (getP c9direct 0).name = "e1" ++ "end"
      ∧ (getL c9direct 0).to_tp = 1 ∧ (getP c9direct 1).name = "e2" ++ "start"
      ∧ (getL c9direct 0).strict = true
      ∧ (getL c9direct 0).duration_min = .fin 5
      ∧ elapsed 99 c9direct (.name "e1") (.name "e2") 1 = (.fin 5, .pinf)
      ∧ elapsed 99 c9direct (.name "e1") (.name "e2") DEFAULT_EFFORT = (.fin 0, .pinf) := by
  refine ⟨fun _ _ _ _ _ _ => rfl, ?_⟩
  decide

end TG

namespace TG

theorem split_equal_eq : split_time_pred "equal" = ("equal", -1, -1) := by decide

theorem split_before0_eq : split_time_pred "before-0" = ("before", 0, -1) := by decide

/-- C1 amended: queries on a name `a` carrying no point and no event never
consult effort and never search.  Against a second missing name the relation
query answers `same-time` (None == None), against an existing plain point it
raises (`TimePoint.__eq__` asserts its argument's type), and only against an
event does it answer `unknown`; `elapsed` on missing data returns `(0, inf)`
in both argument orders. -/
theorem C1_missing_queries (fuel : Nat) (st : TimeGraph) (a b : String)
    (effort : Int) (j : Nat) (e : EventPoint)
    (ha1 : is_event st a = false) (ha2 : time_point st a = none) :
    ((is_event st b = false) → (time_point st b = none) →
        relation fuel st (.basic (.name a)) (.basic (.name b)) effort
          = .ok (st, PRED_SAME_TIME))
      ∧ ((is_event st b = false) → (time_point st b = some j) →
          relation fuel st (.basic (.name a)) (.basic (.name b)) effort
            = .error "AssertionError: TimePoint.__eq__ expects a TimePoint"
          ∧ relation fuel st (.basic (.name b)) (.basic (.name a)) effort
            = .error "AssertionError: TimePoint.__eq__ expects a TimePoint")
      ∧ ((is_event st b = true) → (event_point st b = some e) →
          relation fuel st (.basic (.name a)) (.basic (.name b)) effort
            = .ok (st, PRED_UNKNOWN)
          ∧ relation fuel st (.basic (.name b)) (.basic (.name a)) effort
            = .ok (st, PRED_UNKNOWN))
      ∧ elapsed fuel st (.name a) (.name b) effort = (.fin 0, .pinf)
      ∧ elapsed fuel st (.name b) (.name a) effort = (.fin 0, .pinf) := by
  refine ⟨fun hb1 hb2 => ?_, fun hb1 hb2 => ⟨?_, ?_⟩, fun hb1 hb2 => ⟨?_, ?_⟩, ?_, ?_⟩
  · simp [relation, resolveArg, isAbsRVal, find_relation, pyEqR, ha1, ha2, hb1, hb2]
  · simp [relation, resolveArg, isAbsRVal, find_relation, pyEqR, ha1, ha2, hb1, hb2]
  · simp [relation, resolveArg, isAbsRVal, find_relation, pyEqR, ha1, ha2, hb1, hb2]
  · simp [relation, resolveArg, isAbsRVal, find_relation, pyEqR, isPtOrEv,
      ha1, ha2, hb1, hb2]
  · simp [relation, resolveArg, isAbsRVal, find_relation, pyEqR, isPtOrEv,
      ha1, ha2, hb1, hb2]
  · simp [elapsed, resolveE, getEndE, getStartE, calc_duration, ha1, ha2]
  · cases hcb : getEndE st (resolveE st (.name b)) with
    | none => simp [elapsed, resolveE, getStartE, ha1, ha2, hcb, calc_duration]
    | some i => simp [elapsed, resolveE, getStartE, ha1, ha2, hcb, calc_duration]

/-- C1 witness: the four missing-data behaviours on the concrete graph `c1st`
(event `ev`, point `pt`) with the absent names `zz` and `ww`. -/
theorem C1_missing_queries_witness :
    relation 9 c1st (.basic (.name "zz")) (.basic (.name "ww")) 0
        = .ok (c1st, PRED_SAME_TIME)
      ∧ relation 9 c1st (.basic (.name "zz")) (.basic (.name "pt")) 0
        = .error "AssertionError: TimePoint.__eq__ expects a TimePoint"
      ∧ relation 9 c1st (.basic (.name "zz")) (.basic (.name "ev")) 0
        = .ok (c1st, PRED_UNKNOWN)
      ∧ elapsed 9 c1st (.name "zz") (.name "ev") 0 = (.fin 0, .pinf) :=
  ⟨(C1_missing_queries 9 c1st "zz" "ww" 0 0 ⟨"", "", ""⟩ (by decide) (by decide)).1
      (by decide) (by decide),
   ((C1_missing_queries 9 c1st "zz" "pt" 0 0 ⟨"", "", ""⟩ (by decide) (by decide)).2.1
      (by decide) (by decide)).1,
   ((C1_missing_queries 9 c1st "zz" "ev" 0 0 ⟨"ev", "evstart", "evend"⟩ (by decide)
      (by decide)).2.2.1 (by decide) (by decide)).1,
   (C1_missing_queries 9 c1st "zz" "ev" 0 0 ⟨"ev", "evstart", "evend"⟩ (by decide)
      (by decide)).2.2.2.1⟩

/-- C3 amended: the strict-before round trip does hold immediately after
`enter(a, before-1, b)` on a graph in which neither name is already
constrained (here the fresh graph): the entry is accepted and the two
relation queries at effort 1 answer `before-1` and `after-1`.  With a prior
state relating the names the round trip can fail (see the C3
counterexample). -/
theorem C3_strict_before_fresh :
    (enter 99 TimeGraph.init (.basic (.name "a")) "before-1" (.basic (.name "b")) none).map
        (·.2) = .ok true
    ∧ ((enter 99 TimeGraph.init (.basic (.name "a")) "before-1" (.basic (.name "b")) none).bind
        (fun r => relation 99 r.1 (.basic (.name "a")) (.basic (.name "b")) 1)).map
          (fun x => x.2)
      = .ok (PRED_BEFORE ++ "-1")
    ∧ ((enter 99 TimeGraph.init (.basic (.name "a")) "before-1" (.basic (.name "b")) none).bind
        (fun r => relation 99 r.1 (.basic (.name "b")) (.basic (.name "a")) 1)).map
          (fun x => x.2)
      = .ok (PRED_AFTER ++ "-1") := by
  decide

/-- C4 amended: on a fresh graph (in general: whenever the two names are not
already incompatibly constrained), `enter(a, equal, b)` for distinct names
aliases both names to one time point and the subsequent default-effort query
answers `same-time`.  With an adversarial prior state the collapse is
silently skipped (see the C4 counterexample). -/
theorem C4_enter_equal_fresh (a b : String) (hab : (a == b) = false) :
    (enter 100 TimeGraph.init (.basic (.name a)) "equal" (.basic (.name b)) none).map
        (fun r => (r.2, time_point r.1 a, time_point r.1 b))
      = .ok (true, some 0, some 0)
    ∧ ((enter 100 TimeGraph.init (.basic (.name a)) "equal" (.basic (.name b)) none).bind
        (fun r => relation 100 r.1 (.basic (.name a)) (.basic (.name b)) DEFAULT_EFFORT)).map
          (·.2)
      = .ok PRED_SAME_TIME := by
  have hne : a ≠ b := by simpa using hab
  have hba : (b == a) = false := by simpa using hne.symm
  constructor <;>
  simp [enter, a3_type_ok, enter_dispatch, promoteA3, split_equal_eq,
    promoteEvent, is_event, event_point, TimeGraph.init, PREDS_SEQ, PREDS_CONTAINMENT,
    PREDS_EQUIV, PRED_EQUAL, PRED_BEFORE, PRED_AFTER, PRED_SAME_TIME, PRED_AT,
    PRED_EXACTLY, PRED_DURING, PRED_CONTAINS, PRED_OVERLAPS, PRED_OVERLAPPED_BY,
    PRED_BETWEEN, PRED_UNKNOWN, PRED_HAS_DURATION, enter_equal_core, enter_reln,
    get_start_nameT, get_end_nameT, enter_point, check_equal, time_point, add_single,
    newchain, update_first, getP, setP, modifyP, mkTimePoint, PSEUDO_INIT, add_equal,
    update_point, time_chain, setChain, add_event, hab, hba, hne, List.lookup,
    relation, resolveArg, isAbsRVal, find_relation, pyEqR, pointEqPy, isPtOrEv,
    DEFAULT_EFFORT]

/-- C4 witness: the aliasing equality entry at the concrete fresh names. -/
theorem C4_enter_equal_fresh_witness :
    (enter 100 TimeGraph.init (.basic (.name "a")) "equal" (.basic (.name "b")) none).map
        (fun r => (r.2, time_point r.1 "a", time_point r.1 "b"))
      = .ok (true, some 0, some 0)
    ∧ ((enter 100 TimeGraph.init (.basic (.name "a")) "equal" (.basic (.name "b")) none).bind
        (fun r => relation 100 r.1 (.basic (.name "a")) (.basic (.name "b"))
          DEFAULT_EFFORT)).map (·.2)
      = .ok PRED_SAME_TIME :=
  C4_enter_equal_fresh "a" "b" (by decide)

/-- C10 amended: `enter(a, before-0, b)` (explicit strictness 0) on a graph
where the names are unconstrained collapses the two names to one time point
and stores no link at all; when the points are already strictly ordered the
collapse backs off and the points stay distinct (see the C10
counterexample). -/
theorem C10_before0_collapses (a b : String) (hab : (a == b) = false) :
    (enter 100 TimeGraph.init (.basic (.name a)) "before-0" (.basic (.name b)) none).map
        (fun r => (r.2, time_point r.1 a, time_point r.1 b, r.1.links))
      = .ok (true, some 0, some 0, []) := by
  have hne : a ≠ b := by simpa using hab
  have hba : (b == a) = false := by simpa using hne.symm
  simp [enter, a3_type_ok, enter_dispatch, promoteA3, split_before0_eq,
    promoteEvent, is_event, event_point, TimeGraph.init, PREDS_SEQ, PREDS_CONTAINMENT,
    PREDS_EQUIV, PRED_EQUAL, PRED_BEFORE, PRED_AFTER, PRED_SAME_TIME, PRED_AT,
    PRED_EXACTLY, PRED_DURING, PRED_CONTAINS, PRED_OVERLAPS, PRED_OVERLAPPED_BY,
    PRED_BETWEEN, PRED_UNKNOWN, PRED_HAS_DURATION, enter_seq_branch, enter_seq_core,
    enter_reln, get_start_nameT, get_end_nameT, enter_point, check_before, strict_p,
    check_equal, time_point, add_single,
    newchain, update_first, getP, setP, modifyP, mkTimePoint, PSEUDO_INIT, add_equal,
    update_point, time_chain, setChain, add_event, hab, hba, hne, List.lookup,
    DEFAULT_EFFORT]

/-- C10 witness: the strictness-0 collapse at the concrete fresh names. -/
theorem C10_before0_collapses_witness :
    (enter 100 TimeGraph.init (.basic (.name "a")) "before-0" (.basic (.name "b")) none).map
        (fun r => (r.2, time_point r.1 "a", time_point r.1 "b", r.1.links))
      = .ok (true, some 0, some 0, []) :=
  C10_before0_collapses "a" "b" (by decide)

end TG
